import Mathlib

/-!
Shallow embedding of the ELAM-RA backend (gold/currency price-quoting
service) and verification of its specification claims.

Modelling conventions, used throughout:

* JavaScript numbers are modelled as exact rationals (`ℚ`); where the
  IEEE-754 special values Infinity, -Infinity and NaN matter (the currency
  `convert` pipeline divides by a stored rate) we use the `JSNum` wrapper
  below with ECMAScript division/multiplication/`Math.round` semantics on
  those special values.  Floating-point rounding error is not modelled.
* SQL timestamps (`datetime('now')`, `effective_from`, `effective_until`)
  are modelled as natural numbers; `NULL` columns are `Option`.
* Each database table touched by a claim is a Lean list of row structures;
  a model-class static method becomes a function from the table state (plus
  the current timestamp) to the new table state and/or a result.
* `logChange` / audit-log writes never modify the price, user or settings
  tables and their failures are swallowed by the source, so stores that no
  claim inspects omit the audit table; the CSRF middleware model (claim C7)
  tracks audit writes explicitly because its claim is about them.
* JavaScript truthiness on an optional numeric field (`x || d`) is
  `jsOrQ`; on an optional string it is `truthyS`.  `NaN` inputs to these
  merges are outside the model.
-/

/-- JavaScript `x || d` for a possibly-undefined numeric field:
`undefined` and `0` are falsy and yield the default `d`. -/
def jsOrQ (x : Option ℚ) (d : ℚ) : ℚ :=
  match x with
  | none => d
  | some v => if v = 0 then d else v

/-- JavaScript truthiness of a possibly-undefined string:
`undefined` and the empty string are falsy. -/
def truthyS (o : Option String) : Bool :=
  match o with
  | none => false
  | some s => s ≠ ""

/-- JavaScript number with the IEEE-754 special values that the currency
conversion pipeline can produce.  `fin q` is an ordinary (finite) number. -/
inductive JSNum where
  | fin (q : ℚ)
  | inf
  | negInf
  | nan
deriving DecidableEq, Repr

namespace JSNum

/-- ECMAScript division.  Finite / 0 gives a signed infinity (or NaN for
0 / 0); a finite number divided by an infinity gives 0. -/
def div : JSNum → JSNum → JSNum
  | fin a, fin b =>
      if b = 0 then
        if a > 0 then inf else if a < 0 then negInf else nan
      else fin (a / b)
  | fin _, inf => fin 0
  | fin _, negInf => fin 0
  | inf, fin b => if b < 0 then negInf else inf
  | negInf, fin b => if b < 0 then inf else negInf
  | inf, inf => nan
  | inf, negInf => nan
  | negInf, inf => nan
  | negInf, negInf => nan
  | nan, _ => nan
  | _, nan => nan

/-- ECMAScript multiplication.  An infinity times 0 is NaN. -/
def mul : JSNum → JSNum → JSNum
  | fin a, fin b => fin (a * b)
  | fin a, inf => if a > 0 then inf else if a < 0 then negInf else nan
  | fin a, negInf => if a > 0 then negInf else if a < 0 then inf else nan
  | inf, fin b => if b > 0 then inf else if b < 0 then negInf else nan
  | negInf, fin b => if b > 0 then negInf else if b < 0 then inf else nan
  | inf, inf => inf
  | inf, negInf => negInf
  | negInf, inf => negInf
  | negInf, negInf => inf
  | nan, _ => nan
  | _, nan => nan

/-- ECMAScript `Math.round`: ties round toward +∞, i.e. `⌊x + 1/2⌋` on
finite values; infinities and NaN pass through. -/
def round : JSNum → JSNum
  | fin q => fin ((⌊q + 1/2⌋ : ℤ) : ℚ)
  | inf => inf
  | negInf => negInf
  | nan => nan

end JSNum

/-- `Math.round(x * 10000) / 10000`, the 4-decimal-place rounding used by
`CurrencyRate.convert` on both the result and the cross rate. -/
def round4 (x : JSNum) : JSNum :=
  JSNum.div (JSNum.round (JSNum.mul x (JSNum.fin 10000))) (JSNum.fin 10000)

/-- Modelled from the spec: the spec sentence "rounded to 4 decimal places
… using round-half-away-from-zero on value×precision" as a function on
exact rationals, for comparison against the source's `Math.round`-based
rounding. -/
def specRound4HalfAwayFromZero (q : ℚ) : ℚ :=
  (if 0 ≤ q then ((⌊q * 10000 + 1/2⌋ : ℤ) : ℚ)
   else -((⌊-(q * 10000) + 1/2⌋ : ℤ) : ℚ)) / 10000

/-! ## GoldPrice (src/models/GoldPrice.js)

A `gold_prices` row, as read back by the model's constructor.  Fields not
used by any claim (the joined gold-type name/karat columns and
`created_at`) are omitted. -/

structure GoldPrice where
  id : ℕ
  goldTypeId : ℕ
  buyPrice : ℚ
  sellPrice : ℚ
  spread : ℚ
  marginBuy : ℚ
  marginSell : ℚ
  isManual : Bool
  updatedBy : Option ℕ
  effectiveFrom : ℕ
  effectiveUntil : Option ℕ
deriving DecidableEq, Repr

namespace GoldPrice

/-- `calculateSpread()`: `this.sellPrice - this.buyPrice`. -/
def calculateSpread (p : GoldPrice) : ℚ :=
  p.sellPrice - p.buyPrice

/-- `calculateMargin(type)`: the buy (resp. sell) price times the buy
(resp. sell) margin fraction.  The source compares `type === 'buy'` and
treats every other string as the sell side. -/
def calculateMargin (p : GoldPrice) (type : String) : ℚ :=
  let price := if type = "buy" then p.buyPrice else p.sellPrice
  let margin := if type = "buy" then p.marginBuy else p.marginSell
  price * margin

/-- `getFinalPrice(type)`: raw price plus margin on the buy side, raw
price minus margin on the sell side. -/
def getFinalPrice (p : GoldPrice) (type : String) : ℚ :=
  let price := if type = "buy" then p.buyPrice else p.sellPrice
  let margin := p.calculateMargin type
  if type = "buy" then price + margin else price - margin

/-- The argument object accepted by `GoldPrice.create`.  `marginBuy`,
`marginSell` may be absent (`undefined`), in which case `create`'s
`priceData.marginBuy || 0` inserts 0. -/
structure PriceData where
  goldTypeId : ℕ
  buyPrice : ℚ
  sellPrice : ℚ
  marginBuy : Option ℚ
  marginSell : Option ℚ
  isManual : Bool
deriving DecidableEq, Repr

/-- The partial-fields argument of `GoldPrice.update`; every field may be
absent (`undefined`). -/
structure UpdateData where
  buyPrice : Option ℚ
  sellPrice : Option ℚ
  marginBuy : Option ℚ
  marginSell : Option ℚ
  isManual : Option Bool
deriving DecidableEq, Repr

/-- The `gold_prices` table plus the id the next `INSERT` will allocate
(`SERIAL PRIMARY KEY`). -/
structure Store where
  recs : List GoldPrice
  nextId : ℕ
deriving DecidableEq, Repr

/-- The empty `gold_prices` table. -/
def emptyStore : Store := { recs := [], nextId := 1 }

/-- The `UPDATE … SET effective_until = datetime('now') WHERE
gold_type_id = ? AND effective_until IS NULL` step of `create`, applied to
one row. -/
def closeOpen (gid now : ℕ) (r : GoldPrice) : GoldPrice :=
  if r.goldTypeId = gid ∧ r.effectiveUntil = none then
    { r with effectiveUntil := some now }
  else r

/-- `GoldPrice.create(priceData, updatedBy)`: close every open row of the
gold type, then insert one new open row with computed spread and
`effective_from = datetime('now')`.  Returns the new store and the row the
source reads back via `findById(result.id)`. -/
def create (s : Store) (now : ℕ) (d : PriceData) (updatedBy : Option ℕ) :
    Store × GoldPrice :=
  let closed := s.recs.map (closeOpen d.goldTypeId now)
  let newRec : GoldPrice :=
    { id := s.nextId
      goldTypeId := d.goldTypeId
      buyPrice := d.buyPrice
      sellPrice := d.sellPrice
      spread := d.sellPrice - d.buyPrice
      marginBuy := jsOrQ d.marginBuy 0
      marginSell := jsOrQ d.marginSell 0
      isManual := d.isManual
      updatedBy := updatedBy
      effectiveFrom := now
      effectiveUntil := none }
  ({ recs := closed ++ [newRec], nextId := s.nextId + 1 }, newRec)

/-- `GoldPrice.findById(id)` (ignoring the joined gold-type columns). -/
def findById (s : Store) (id : ℕ) : Option GoldPrice :=
  s.recs.find? (fun r => r.id == id)

/-- The `WHERE` clause of `getCurrentPrice`: same gold type,
`effective_from <= datetime('now')`, and `effective_until IS NULL OR
effective_until > datetime('now')`. -/
def currentFor (gid now : ℕ) (r : GoldPrice) : Bool :=
  r.goldTypeId == gid && decide (r.effectiveFrom ≤ now) &&
    (match r.effectiveUntil with
     | none => true
     | some u => decide (now < u))

/-- `ORDER BY effective_from DESC LIMIT 1` over the qualifying rows.  SQL
leaves the winner of an `effective_from` tie unspecified; following the
spec's stated tie-break (highest id) this model lets the later-inserted
row win ties.  No claim below depends on the tie-break: in each theorem at
most one row qualifies. -/
def pickLatest (l : List GoldPrice) : Option GoldPrice :=
  l.foldl
    (fun best r =>
      match best with
      | none => some r
      | some b => if b.effectiveFrom ≤ r.effectiveFrom then some r else some b)
    none

/-- `GoldPrice.getCurrentPrice(goldTypeId)`. -/
def getCurrentPrice (s : Store) (now : ℕ) (gid : ℕ) : Option GoldPrice :=
  pickLatest (s.recs.filter (currentFor gid now))

/-- The merged object `update` passes to `create` when the target row is
still open: prices merged with JavaScript `||` (so 0 is treated as
absent), margins and `isManual` merged with `!== undefined`. -/
def mergedData (p : GoldPrice) (f : UpdateData) : PriceData :=
  { goldTypeId := p.goldTypeId
    buyPrice := jsOrQ f.buyPrice p.buyPrice
    sellPrice := jsOrQ f.sellPrice p.sellPrice
    marginBuy := some (f.marginBuy.getD p.marginBuy)
    marginSell := some (f.marginSell.getD p.marginSell)
    isManual := f.isManual.getD p.isManual }

/-- The row produced by `update`'s in-place `UPDATE … WHERE id = ?` branch
(taken when the target row is already closed): prices merged with `||`,
spread recomputed, margins and `isManual` merged with `!== undefined`;
`effective_from`/`effective_until` are untouched. -/
def inPlaceRec (p : GoldPrice) (f : UpdateData) (updatedBy : Option ℕ) :
    GoldPrice :=
  { p with
    buyPrice := jsOrQ f.buyPrice p.buyPrice
    sellPrice := jsOrQ f.sellPrice p.sellPrice
    spread := jsOrQ f.sellPrice p.sellPrice - jsOrQ f.buyPrice p.buyPrice
    marginBuy := f.marginBuy.getD p.marginBuy
    marginSell := f.marginSell.getD p.marginSell
    isManual := f.isManual.getD p.isManual
    updatedBy := updatedBy }

/-- `GoldPrice.update(id, priceData, updatedBy)`: error when the id is
unknown; redirect to `create` with the merged fields when the row is still
open; otherwise update the row in place. -/
def update (s : Store) (now : ℕ) (id : ℕ) (f : UpdateData)
    (updatedBy : Option ℕ) : Except String (Store × GoldPrice) :=
  match findById s id with
  | none => .error "Gold price not found"
  | some price =>
      if price.effectiveUntil = none then
        .ok (create s now (mergedData price f) updatedBy)
      else
        .ok ({ recs :=
                 s.recs.map (fun r =>
                   if r.id = id then inPlaceRec price f updatedBy else r)
               nextId := s.nextId },
             inPlaceRec price f updatedBy)

/-- Number of open rows (`effective_until IS NULL`) of one gold type. -/
def openCount (s : Store) (gid : ℕ) : ℕ :=
  (s.recs.filter
    (fun r => r.goldTypeId == gid && r.effectiveUntil == none)).length

/-- One `create` call: timestamp, payload, actor. -/
structure CreateCall where
  now : ℕ
  data : PriceData
  updatedBy : Option ℕ

/-- A single-threaded sequence of `create` calls. -/
def applyCreates (s : Store) : List CreateCall → Store
  | [] => s
  | c :: cs => applyCreates (create s c.now c.data c.updatedBy).1 cs

end GoldPrice

/-! ## CurrencyRate (src/unnamed/part_000, backend/models/CurrencyRate.js)

Field-for-field mirror of `GoldPrice` over the `currency_rates` table,
plus the `currencies` reference table and the conversion pipeline.  Joined
display columns (name/symbol/flag) are omitted. -/

structure CurrencyRate where
  id : ℕ
  currencyId : ℕ
  buyRate : ℚ
  sellRate : ℚ
  spread : ℚ
  marginBuy : ℚ
  marginSell : ℚ
  isManual : Bool
  updatedBy : Option ℕ
  effectiveFrom : ℕ
  effectiveUntil : Option ℕ
deriving DecidableEq, Repr

/-- One `currencies` row (only the columns the claims read). -/
structure Currency where
  id : ℕ
  code : String
deriving DecidableEq, Repr

namespace CurrencyRate

/-- `calculateSpread()`: `this.sellRate - this.buyRate`. -/
def calculateSpread (r : CurrencyRate) : ℚ :=
  r.sellRate - r.buyRate

/-- `calculateMargin(type)`: the buy (resp. sell) rate times the buy
(resp. sell) margin fraction. -/
def calculateMargin (r : CurrencyRate) (type : String) : ℚ :=
  let rate := if type = "buy" then r.buyRate else r.sellRate
  let margin := if type = "buy" then r.marginBuy else r.marginSell
  rate * margin

/-- `getFinalRate(type)`: raw rate plus margin on the buy side, raw rate
minus margin on the sell side. -/
def getFinalRate (r : CurrencyRate) (type : String) : ℚ :=
  let rate := if type = "buy" then r.buyRate else r.sellRate
  let margin := r.calculateMargin type
  if type = "buy" then rate + margin else rate - margin

/-- `convertFromBase(amount, type)`: `amount * this.getFinalRate(type)`,
in JavaScript-number arithmetic. -/
def convertFromBase (r : CurrencyRate) (amount : JSNum) (type : String) :
    JSNum :=
  JSNum.mul amount (JSNum.fin (r.getFinalRate type))

/-- `convertToBase(amount, type)`: `amount / this.getFinalRate(type)`,
in JavaScript-number arithmetic (so a zero final rate yields a signed
infinity or NaN, not an error). -/
def convertToBase (r : CurrencyRate) (amount : JSNum) (type : String) :
    JSNum :=
  JSNum.div amount (JSNum.fin (r.getFinalRate type))

/-- The argument object accepted by `CurrencyRate.create`. -/
structure RateData where
  currencyId : ℕ
  buyRate : ℚ
  sellRate : ℚ
  marginBuy : Option ℚ
  marginSell : Option ℚ
  isManual : Bool
deriving DecidableEq, Repr

/-- The partial-fields argument of `CurrencyRate.update`. -/
structure UpdateData where
  buyRate : Option ℚ
  sellRate : Option ℚ
  marginBuy : Option ℚ
  marginSell : Option ℚ
  isManual : Option Bool
deriving DecidableEq, Repr

/-- The `currencies` and `currency_rates` tables plus the next
`currency_rates` id. -/
structure Store where
  currencies : List Currency
  rates : List CurrencyRate
  nextId : ℕ
deriving DecidableEq, Repr

/-- Empty tables. -/
def emptyStore : Store := { currencies := [], rates := [], nextId := 1 }

/-- The `UPDATE … SET effective_until = datetime('now') WHERE
currency_id = ? AND effective_until IS NULL` step of `create`, applied to
one row. -/
def closeOpen (cid now : ℕ) (r : CurrencyRate) : CurrencyRate :=
  if r.currencyId = cid ∧ r.effectiveUntil = none then
    { r with effectiveUntil := some now }
  else r

/-- `CurrencyRate.create(rateData, updatedBy)`: close every open row of
the currency, then insert one new open row with computed spread. -/
def create (s : Store) (now : ℕ) (d : RateData) (updatedBy : Option ℕ) :
    Store × CurrencyRate :=
  let closed := s.rates.map (closeOpen d.currencyId now)
  let newRec : CurrencyRate :=
    { id := s.nextId
      currencyId := d.currencyId
      buyRate := d.buyRate
      sellRate := d.sellRate
      spread := d.sellRate - d.buyRate
      marginBuy := jsOrQ d.marginBuy 0
      marginSell := jsOrQ d.marginSell 0
      isManual := d.isManual
      updatedBy := updatedBy
      effectiveFrom := now
      effectiveUntil := none }
  ({ s with rates := closed ++ [newRec], nextId := s.nextId + 1 }, newRec)

/-- `CurrencyRate.findById(id)`. -/
def findById (s : Store) (id : ℕ) : Option CurrencyRate :=
  s.rates.find? (fun r => r.id == id)

/-- The `WHERE` clause of `getCurrentRate`. -/
def currentFor (cid now : ℕ) (r : CurrencyRate) : Bool :=
  r.currencyId == cid && decide (r.effectiveFrom ≤ now) &&
    (match r.effectiveUntil with
     | none => true
     | some u => decide (now < u))

/-- `ORDER BY effective_from DESC LIMIT 1`; same tie-break remark as for
`GoldPrice.pickLatest`. -/
def pickLatest (l : List CurrencyRate) : Option CurrencyRate :=
  l.foldl
    (fun best r =>
      match best with
      | none => some r
      | some b => if b.effectiveFrom ≤ r.effectiveFrom then some r else some b)
    none

/-- `CurrencyRate.getCurrentRate(currencyId)`. -/
def getCurrentRate (s : Store) (now : ℕ) (cid : ℕ) : Option CurrencyRate :=
  pickLatest (s.rates.filter (currentFor cid now))

/-- `CurrencyRate.getCurrentRateByCode(code)`: join through the unique
`currencies.code` column (the source upper-cases the argument first). -/
def getCurrentRateByCode (s : Store) (now : ℕ) (code : String) :
    Option CurrencyRate :=
  match s.currencies.find? (fun c => c.code == code.toUpper) with
  | none => none
  | some c => getCurrentRate s now c.id

/-- The merged object `update` passes to `create` when the target row is
still open. -/
def mergedData (p : CurrencyRate) (f : UpdateData) : RateData :=
  { currencyId := p.currencyId
    buyRate := jsOrQ f.buyRate p.buyRate
    sellRate := jsOrQ f.sellRate p.sellRate
    marginBuy := some (f.marginBuy.getD p.marginBuy)
    marginSell := some (f.marginSell.getD p.marginSell)
    isManual := f.isManual.getD p.isManual }

/-- The row produced by `update`'s in-place branch (target row already
closed). -/
def inPlaceRec (p : CurrencyRate) (f : UpdateData) (updatedBy : Option ℕ) :
    CurrencyRate :=
  { p with
    buyRate := jsOrQ f.buyRate p.buyRate
    sellRate := jsOrQ f.sellRate p.sellRate
    spread := jsOrQ f.sellRate p.sellRate - jsOrQ f.buyRate p.buyRate
    marginBuy := f.marginBuy.getD p.marginBuy
    marginSell := f.marginSell.getD p.marginSell
    isManual := f.isManual.getD p.isManual
    updatedBy := updatedBy }

/-- `CurrencyRate.update(id, rateData, updatedBy)`. -/
def update (s : Store) (now : ℕ) (id : ℕ) (f : UpdateData)
    (updatedBy : Option ℕ) : Except String (Store × CurrencyRate) :=
  match findById s id with
  | none => .error "Currency rate not found"
  | some rate =>
      if rate.effectiveUntil = none then
        .ok (create s now (mergedData rate f) updatedBy)
      else
        .ok ({ s with rates :=
                 s.rates.map (fun r =>
                   if r.id = id then inPlaceRec rate f updatedBy else r) },
             inPlaceRec rate f updatedBy)

/-- What `CurrencyRate.convert` returns on success. -/
structure ConvertResult where
  amount : JSNum
  fromCode : String
  toCode : String
  result : JSNum
  rate : JSNum
deriving DecidableEq, Repr

/-- `CurrencyRate.convert(amount, fromCode, toCode, type)`: look up both
current rates (throwing `Currency rate not found` when either is
missing), bridge through the base currency with the same `type` on both
legs, and round the result and the cross rate to 4 decimal places with
`Math.round`.  There is no guard against a zero final rate: the division
happens in JavaScript-number arithmetic. -/
def convert (s : Store) (now : ℕ) (amount : JSNum)
    (fromCode toCode type : String) : Except String ConvertResult :=
  match getCurrentRateByCode s now fromCode,
        getCurrentRateByCode s now toCode with
  | some fromRate, some toRate =>
      let baseAmount := fromRate.convertToBase amount type
      let result := toRate.convertFromBase baseAmount type
      .ok { amount := amount
            fromCode := fromCode
            toCode := toCode
            result := round4 result
            rate := round4 (JSNum.div (JSNum.fin (toRate.getFinalRate type))
                                      (JSNum.fin (fromRate.getFinalRate type))) }
  | _, _ => .error "Currency rate not found"

/-- Number of open rows of one currency. -/
def openCount (s : Store) (cid : ℕ) : ℕ :=
  (s.rates.filter
    (fun r => r.currencyId == cid && r.effectiveUntil == none)).length

/-- One `create` call. -/
structure CreateCall where
  now : ℕ
  data : RateData
  updatedBy : Option ℕ

/-- A single-threaded sequence of `create` calls. -/
def applyCreates (s : Store) : List CreateCall → Store
  | [] => s
  | c :: cs => applyCreates (create s c.now c.data c.updatedBy).1 cs

end CurrencyRate

/-! ## StoreSettings.isMarketOpen (src/unnamed/part_000, backend/models/StoreSettings.js)

The source derives the current "HH:MM" string and day-of-week number in
the configured timezone via `toLocaleTimeString`/`toLocaleDateString`;
that locale machinery is not embeddable, so the derived `currentDay` and
`currentTime` are parameters here.  What is embedded is the decision
logic: membership of the day in the configured day list, then the string
comparison `currentTime >= openTime && currentTime <= closeTime`
(JavaScript string comparison is lexicographic on code units, which on
"HH:MM" ASCII strings coincides with Lean's `String` order). -/

namespace StoreSettings

/-- The decision core of `StoreSettings.isMarketOpen()`. -/
def isMarketOpen (days : List ℕ) (openTime closeTime : String)
    (currentDay : ℕ) (currentTime : String) : Bool :=
  if ¬ days.contains currentDay then false
  else decide (openTime ≤ currentTime) && decide (currentTime ≤ closeTime)

end StoreSettings

/-! ## CSRF middleware (src/middleware/security.js)

`csrfProtection` plus `logSecurityEvent`.  In the source,
`logSecurityEvent` only does `console.log`: the `INSERT INTO audit_log`
inside it is commented out, so it inserts zero audit rows.  The
`NODE_ENV === 'production'` bypass in `csrfProtection` is also commented
out (empty `if` body) and is a no-op. -/

/-- Outcome of the CSRF middleware for one request. -/
inductive CsrfOutcome where
  | pass
  | reject (status : ℕ) (code : String)
deriving DecidableEq, Repr

/-- The request fields `csrfProtection` reads.  `none` models an absent
header/field/session value. -/
structure CsrfRequest where
  method : String
  headerToken : Option String
  bodyToken : Option String
  queryToken : Option String
  sessionCsrfToken : Option String
deriving DecidableEq, Repr

/-- What one `csrfProtection` call does: its outcome, whether
`logSecurityEvent` ran (console log of an `INVALID_CSRF` event), and how
many `audit_log` rows were inserted. -/
structure CsrfResult where
  outcome : CsrfOutcome
  securityEventLogged : Bool
  auditRowsInserted : ℕ
deriving DecidableEq, Repr

/-- `logSecurityEvent`: number of `audit_log` rows inserted.  The insert
statement in the source is commented out, so the function only
console-logs the event. -/
def logSecurityEventAuditRows : ℕ := 0

/-- `req.headers['x-csrf-token'] || req.body?._csrf || req.query?._csrf`:
first truthy value wins; when the first two are falsy the expression is
the query field whatever it is. -/
def extractCsrfToken (r : CsrfRequest) : Option String :=
  if truthyS r.headerToken then r.headerToken
  else if truthyS r.bodyToken then r.bodyToken
  else r.queryToken

/-- `csrfProtection(req, res, next)`. -/
def csrfProtection (r : CsrfRequest) : CsrfResult :=
  if r.method = "GET" ∨ r.method = "HEAD" ∨ r.method = "OPTIONS" then
    { outcome := .pass, securityEventLogged := false, auditRowsInserted := 0 }
  else
    let csrfToken := extractCsrfToken r
    if ¬ truthyS csrfToken then
      { outcome := .reject 403 "CSRF_MISSING"
        securityEventLogged := false
        auditRowsInserted := 0 }
    else
      let sessionToken := r.sessionCsrfToken
      if ¬ truthyS sessionToken ∨ csrfToken ≠ sessionToken then
        { outcome := .reject 403 "CSRF_INVALID"
          securityEventLogged := true
          auditRowsInserted := logSecurityEventAuditRows }
      else
        { outcome := .pass, securityEventLogged := false,
          auditRowsInserted := 0 }

/-! ## User (src/unnamed/part_001, backend/models/User.js)

Only the parts `User.delete` touches: the `users` table (id, role,
is_active and identity columns) and the `sessions` table rows'
`user_id`. -/

structure User where
  id : ℕ
  username : String
  role : String
  isActive : Bool
deriving DecidableEq, Repr

/-- One `sessions` row (only `user_id` matters to `User.delete`). -/
structure Session where
  userId : ℕ
deriving DecidableEq, Repr

namespace User

/-- The `users` and `sessions` tables. -/
structure Store where
  users : List User
  sessions : List Session
deriving DecidableEq, Repr

/-- `User.findById(id)`. -/
def findById (s : Store) (id : ℕ) : Option User :=
  s.users.find? (fun u => u.id == id)

/-- `SELECT COUNT(*) FROM users WHERE role = "admin" AND is_active = 1`. -/
def activeAdminCount (s : Store) : ℕ :=
  (s.users.filter (fun u => u.role == "admin" && u.isActive)).length

/-- `User.delete(id, deletedBy)`: error when the user is unknown; error
(leaving both tables unchanged) when the target is an admin and at most
one active admin exists; otherwise delete the user's sessions and the
user row. -/
def delete (s : Store) (id : ℕ) : Except String Store :=
  match findById s id with
  | none => .error "User not found"
  | some user =>
      if user.role = "admin" ∧ activeAdminCount s ≤ 1 then
        .error "Cannot delete the last admin user"
      else
        .ok { users := s.users.filter (fun u => ¬ u.id == id)
              sessions := s.sessions.filter (fun ss => ¬ ss.userId == id) }

/-- At least one active admin user exists. -/
def hasActiveAdmin (s : Store) : Prop :=
  ∃ u ∈ s.users, u.role = "admin" ∧ u.isActive = true

/-- A failed `delete` throws, so the caller's table state is unchanged;
`applyDelete` is the table state after one `delete` attempt. -/
def applyDelete (s : Store) (id : ℕ) : Store :=
  match delete s id with
  | .ok s' => s'
  | .error _ => s

/-- Table state after a sequence of `delete` attempts. -/
def applyDeletes (s : Store) : List ℕ → Store
  | [] => s
  | id :: ids => applyDeletes (applyDelete s id) ids

end User

/-! ## Helper lemmas shared by the claims -/

theorem filter_map_eq_filter {α : Type} (f : α → α) (p : α → Bool) :
    ∀ l : List α, (∀ r ∈ l, p (f r) = p r ∧ (p r = true → f r = r)) →
      (l.map f).filter p = l.filter p := by
  intro l h
  induction l with
  | nil => rfl
  | cons a t ih =>
      have h1 := (h a (List.mem_cons_self a t)).1
      have h2 := (h a (List.mem_cons_self a t)).2
      have ht := ih (fun r hr => h r (List.mem_cons_of_mem a hr))
      cases hp : p a with
      | true => simp [List.filter_cons, h1, hp, h2 hp, ht]
      | false => simp [List.filter_cons, h1, hp, ht]

namespace GoldPrice

theorem openCount_create (s : Store) (now : ℕ) (d : PriceData)
    (ub : Option ℕ) (gid : ℕ) :
    openCount (create s now d ub).1 gid =
      if gid = d.goldTypeId then 1 else openCount s gid := by
  unfold openCount create
  simp only [List.filter_append, List.length_append]
  by_cases h : gid = d.goldTypeId
  · subst h
    have h1 : (s.recs.map (closeOpen d.goldTypeId now)).filter
        (fun r => r.goldTypeId == d.goldTypeId && r.effectiveUntil == none) =
        [] := by
      apply List.filter_eq_nil_iff.mpr
      intro a ha
      rcases List.mem_map.mp ha with ⟨r, _, rfl⟩
      unfold closeOpen
      by_cases hc : r.goldTypeId = d.goldTypeId ∧ r.effectiveUntil = none
      · simp [hc]
      · rw [if_neg hc]
        simp only [Bool.and_eq_true, beq_iff_eq, not_and]
        intro h1 h2
        exact hc ⟨h1, by simpa using h2⟩
    rw [h1]
    simp
  · have h1 : (s.recs.map (closeOpen d.goldTypeId now)).filter
        (fun r => r.goldTypeId == gid && r.effectiveUntil == none) =
        s.recs.filter
          (fun r => r.goldTypeId == gid && r.effectiveUntil == none) := by
      apply filter_map_eq_filter
      intro r _
      unfold closeOpen
      by_cases hc : r.goldTypeId = d.goldTypeId ∧ r.effectiveUntil = none
      · constructor
        · rw [if_pos hc]
          simp [hc.1, Ne.symm h]
        · intro hp
          exfalso
          simp only [Bool.and_eq_true, beq_iff_eq] at hp
          exact h (hp.1 ▸ hc.1 ▸ rfl)
      · rw [if_neg hc]; exact ⟨rfl, fun _ => rfl⟩
    rw [h1]
    simp [h, Ne.symm h]

theorem openCount_applyCreates_le (ops : List CreateCall) :
    ∀ s : Store, (∀ gid, openCount s gid ≤ 1) →
      ∀ gid, openCount (applyCreates s ops) gid ≤ 1 := by
  induction ops with
  | nil => intro s h gid; exact h gid
  | cons c cs ih =>
      intro s h gid
      apply ih
      intro g
      rw [openCount_create]
      by_cases hg : g = c.data.goldTypeId
      · simp [hg]
      · simpa [hg] using h g

theorem openCount_empty (gid : ℕ) : openCount emptyStore gid = 0 := rfl

end GoldPrice

namespace CurrencyRate

theorem rate_openCount_create (s : Store) (now : ℕ) (d : RateData)
    (ub : Option ℕ) (cid : ℕ) :
    openCount (create s now d ub).1 cid =
      if cid = d.currencyId then 1 else openCount s cid := by
  unfold openCount create
  simp only [List.filter_append, List.length_append]
  by_cases h : cid = d.currencyId
  · subst h
    have h1 : (s.rates.map (closeOpen d.currencyId now)).filter
        (fun r => r.currencyId == d.currencyId && r.effectiveUntil == none) =
        [] := by
      apply List.filter_eq_nil_iff.mpr
      intro a ha
      rcases List.mem_map.mp ha with ⟨r, _, rfl⟩
      unfold closeOpen
      by_cases hc : r.currencyId = d.currencyId ∧ r.effectiveUntil = none
      · simp [hc]
      · rw [if_neg hc]
        simp only [Bool.and_eq_true, beq_iff_eq, not_and]
        intro h1 h2
        exact hc ⟨h1, by simpa using h2⟩
    rw [h1]
    simp
  · have h1 : (s.rates.map (closeOpen d.currencyId now)).filter
        (fun r => r.currencyId == cid && r.effectiveUntil == none) =
        s.rates.filter
          (fun r => r.currencyId == cid && r.effectiveUntil == none) := by
      apply filter_map_eq_filter
      intro r _
      unfold closeOpen
      by_cases hc : r.currencyId = d.currencyId ∧ r.effectiveUntil = none
      · constructor
        · rw [if_pos hc]
          simp [hc.1, Ne.symm h]
        · intro hp
          exfalso
          simp only [Bool.and_eq_true, beq_iff_eq] at hp
          exact h (hp.1 ▸ hc.1 ▸ rfl)
      · rw [if_neg hc]; exact ⟨rfl, fun _ => rfl⟩
    rw [h1]
    simp [h, Ne.symm h]

theorem rate_openCount_applyCreates_le (ops : List CreateCall) :
    ∀ s : Store, (∀ cid, openCount s cid ≤ 1) →
      ∀ cid, openCount (applyCreates s ops) cid ≤ 1 := by
  induction ops with
  | nil => intro s h cid; exact h cid
  | cons c cs ih =>
      intro s h cid
      apply ih
      intro g
      rw [rate_openCount_create]
      by_cases hg : g = c.data.currencyId
      · simp [hg]
      · simpa [hg] using h g

theorem rate_openCount_empty (cid : ℕ) : openCount emptyStore cid = 0 := rfl

end CurrencyRate

/-- **C1.** For every instrument, after any single-threaded sequence of
`create` calls on the price version store (gold or currency) starting
from empty tables, at most one record of that instrument has
`effectiveUntil = NULL`; each `create` call first closes every open
record of its instrument and then inserts exactly one new open record, so
immediately after a call its instrument has exactly one open record and
every other instrument's open-record count is unchanged. -/
theorem claim_C1_at_most_one_open_record :
    (∀ (s : GoldPrice.Store) (now : ℕ) (d : GoldPrice.PriceData)
        (ub : Option ℕ) (gid : ℕ),
      GoldPrice.openCount (GoldPrice.create s now d ub).1 gid =
        if gid = d.goldTypeId then 1 else GoldPrice.openCount s gid) ∧
    (∀ (ops : List GoldPrice.CreateCall) (gid : ℕ),
      GoldPrice.openCount
        (GoldPrice.applyCreates GoldPrice.emptyStore ops) gid ≤ 1) ∧
    (∀ (s : CurrencyRate.Store) (now : ℕ) (d : CurrencyRate.RateData)
        (ub : Option ℕ) (cid : ℕ),
      CurrencyRate.openCount (CurrencyRate.create s now d ub).1 cid =
        if cid = d.currencyId then 1 else CurrencyRate.openCount s cid) ∧
    (∀ (ops : List CurrencyRate.CreateCall) (cid : ℕ),
      CurrencyRate.openCount
        (CurrencyRate.applyCreates CurrencyRate.emptyStore ops) cid ≤ 1) := by
  refine ⟨GoldPrice.openCount_create, ?_, CurrencyRate.rate_openCount_create, ?_⟩
  · intro ops gid
    exact GoldPrice.openCount_applyCreates_le ops GoldPrice.emptyStore
      (fun g => by rw [GoldPrice.openCount_empty]; exact Nat.zero_le 1) gid
  · intro ops cid
    exact CurrencyRate.rate_openCount_applyCreates_le ops CurrencyRate.emptyStore
      (fun g => by rw [CurrencyRate.rate_openCount_empty]; exact Nat.zero_le 1) cid

namespace GoldPrice

theorem getCurrent_after_create (s : Store) (now : ℕ) (d : PriceData)
    (ub : Option ℕ)
    (hpast : ∀ r ∈ s.recs, ∀ u, r.effectiveUntil = some u → u ≤ now) :
    getCurrentPrice (create s now d ub).1 now d.goldTypeId =
      some (create s now d ub).2 := by
  unfold getCurrentPrice create
  simp only [List.filter_append]
  have h1 : (s.recs.map (closeOpen d.goldTypeId now)).filter
      (currentFor d.goldTypeId now) = [] := by
    apply List.filter_eq_nil_iff.mpr
    intro a ha
    rcases List.mem_map.mp ha with ⟨r, hr, rfl⟩
    by_cases hc : r.goldTypeId = d.goldTypeId ∧ r.effectiveUntil = none
    · simp [closeOpen, currentFor, hc]
    · rw [closeOpen, if_neg hc]
      cases hu : r.effectiveUntil with
      | none =>
          have hgid : ¬ r.goldTypeId = d.goldTypeId := fun hg => hc ⟨hg, hu⟩
          simp [currentFor, hgid]
      | some u =>
          have hle := hpast r hr u hu
          simp only [currentFor, hu, Bool.and_eq_true, beq_iff_eq,
            decide_eq_true_eq, not_and]
          intro _ _
          omega
  rw [h1]
  simp [currentFor, pickLatest]

theorem closed_version_mem_after_create (s : Store) (now : ℕ)
    (d : PriceData) (ub : Option ℕ) (r : GoldPrice) (hr : r ∈ s.recs)
    (hgid : r.goldTypeId = d.goldTypeId) (hopen : r.effectiveUntil = none) :
    { r with effectiveUntil := some now } ∈ (create s now d ub).1.recs := by
  unfold create
  simp only [List.mem_append]
  left
  exact List.mem_map.mpr ⟨r, hr, by simp [closeOpen, hgid, hopen]⟩

end GoldPrice

namespace CurrencyRate

theorem rate_getCurrent_after_create (s : Store) (now : ℕ) (d : RateData)
    (ub : Option ℕ)
    (hpast : ∀ r ∈ s.rates, ∀ u, r.effectiveUntil = some u → u ≤ now) :
    getCurrentRate (create s now d ub).1 now d.currencyId =
      some (create s now d ub).2 := by
  unfold getCurrentRate create
  simp only [List.filter_append]
  have h1 : (s.rates.map (closeOpen d.currencyId now)).filter
      (currentFor d.currencyId now) = [] := by
    apply List.filter_eq_nil_iff.mpr
    intro a ha
    rcases List.mem_map.mp ha with ⟨r, hr, rfl⟩
    by_cases hc : r.currencyId = d.currencyId ∧ r.effectiveUntil = none
    · simp [closeOpen, currentFor, hc]
    · rw [closeOpen, if_neg hc]
      cases hu : r.effectiveUntil with
      | none =>
          have hcid : ¬ r.currencyId = d.currencyId := fun hg => hc ⟨hg, hu⟩
          simp [currentFor, hcid]
      | some u =>
          have hle := hpast r hr u hu
          simp only [currentFor, hu, Bool.and_eq_true, beq_iff_eq,
            decide_eq_true_eq, not_and]
          intro _ _
          omega
  rw [h1]
  simp [currentFor, pickLatest]

theorem rate_closed_version_mem_after_create (s : Store) (now : ℕ)
    (d : RateData) (ub : Option ℕ) (r : CurrencyRate) (hr : r ∈ s.rates)
    (hcid : r.currencyId = d.currencyId) (hopen : r.effectiveUntil = none) :
    { r with effectiveUntil := some now } ∈ (create s now d ub).1.rates := by
  unfold create
  simp only [List.mem_append]
  left
  exact List.mem_map.mpr ⟨r, hr, by simp [closeOpen, hcid, hopen]⟩

end CurrencyRate

/-- **C2.** For every instrument, `create` immediately followed by
`getCurrent` (`getCurrentPrice` / `getCurrentRate`) at the same timestamp
returns exactly the just-created record (whose `effectiveFrom` is the
current time and whose `effectiveUntil` is `NULL`), provided every
previously closed record was closed at or before the current time; and
every record of the instrument that was open before the call now appears
closed with `effectiveUntil` equal to the creation timestamp, so it no
longer satisfies `effectiveUntil > now`. -/
theorem claim_C2_create_then_getCurrent :
    (∀ (s : GoldPrice.Store) (now : ℕ) (d : GoldPrice.PriceData)
        (ub : Option ℕ),
      (∀ r ∈ s.recs, ∀ u, r.effectiveUntil = some u → u ≤ now) →
      GoldPrice.getCurrentPrice (GoldPrice.create s now d ub).1 now
          d.goldTypeId = some (GoldPrice.create s now d ub).2 ∧
        (GoldPrice.create s now d ub).2.effectiveFrom = now ∧
        (GoldPrice.create s now d ub).2.effectiveUntil = none ∧
        ∀ r ∈ s.recs, r.goldTypeId = d.goldTypeId →
          r.effectiveUntil = none →
          { r with effectiveUntil := some now } ∈
            (GoldPrice.create s now d ub).1.recs) ∧
    (∀ (s : CurrencyRate.Store) (now : ℕ) (d : CurrencyRate.RateData)
        (ub : Option ℕ),
      (∀ r ∈ s.rates, ∀ u, r.effectiveUntil = some u → u ≤ now) →
      CurrencyRate.getCurrentRate (CurrencyRate.create s now d ub).1 now
          d.currencyId = some (CurrencyRate.create s now d ub).2 ∧
        (CurrencyRate.create s now d ub).2.effectiveFrom = now ∧
        (CurrencyRate.create s now d ub).2.effectiveUntil = none ∧
        ∀ r ∈ s.rates, r.currencyId = d.currencyId →
          r.effectiveUntil = none →
          { r with effectiveUntil := some now } ∈
            (CurrencyRate.create s now d ub).1.rates) := by
  constructor
  · intro s now d ub hpast
    exact ⟨GoldPrice.getCurrent_after_create s now d ub hpast, rfl, rfl,
      fun r hr hgid hopen =>
        GoldPrice.closed_version_mem_after_create s now d ub r hr hgid hopen⟩
  · intro s now d ub hpast
    exact ⟨CurrencyRate.rate_getCurrent_after_create s now d ub hpast, rfl, rfl,
      fun r hr hcid hopen =>
        CurrencyRate.rate_closed_version_mem_after_create s now d ub r hr hcid
          hopen⟩

/-- Witness for C2 at a concrete input: a store holding one open gold
(resp. currency) record, a `create` at time 5, and the `getCurrent`
lookup. -/
theorem claim_C2_witness :
    ((∀ r ∈ (⟨[⟨1, 1, 90, 95, 5, 0, 0, false, none, 2, none⟩], 2⟩ :
        GoldPrice.Store).recs, ∀ u, r.effectiveUntil = some u → u ≤ 5) ∧
      GoldPrice.getCurrentPrice
        (GoldPrice.create
          ⟨[⟨1, 1, 90, 95, 5, 0, 0, false, none, 2, none⟩], 2⟩ 5
          ⟨1, 100, 105, none, none, false⟩ none).1 5 1 =
        some (GoldPrice.create
          ⟨[⟨1, 1, 90, 95, 5, 0, 0, false, none, 2, none⟩], 2⟩ 5
          ⟨1, 100, 105, none, none, false⟩ none).2) ∧
    ((∀ r ∈ (⟨[], [⟨1, 1, 90, 95, 5, 0, 0, false, none, 2, none⟩], 2⟩ :
        CurrencyRate.Store).rates, ∀ u, r.effectiveUntil = some u → u ≤ 5) ∧
      CurrencyRate.getCurrentRate
        (CurrencyRate.create
          ⟨[], [⟨1, 1, 90, 95, 5, 0, 0, false, none, 2, none⟩], 2⟩ 5
          ⟨1, 100, 105, none, none, false⟩ none).1 5 1 =
        some (CurrencyRate.create
          ⟨[], [⟨1, 1, 90, 95, 5, 0, 0, false, none, 2, none⟩], 2⟩ 5
          ⟨1, 100, 105, none, none, false⟩ none).2) := by
  have hg : ∀ r ∈ (⟨[⟨1, 1, 90, 95, 5, 0, 0, false, none, 2, none⟩], 2⟩ :
      GoldPrice.Store).recs, ∀ u, r.effectiveUntil = some u → u ≤ 5 := by
    intro r hr u hu
    simp only [List.mem_singleton] at hr
    subst hr
    simp at hu
  have hc : ∀ r ∈ (⟨[], [⟨1, 1, 90, 95, 5, 0, 0, false, none, 2, none⟩], 2⟩ :
      CurrencyRate.Store).rates, ∀ u, r.effectiveUntil = some u → u ≤ 5 := by
    intro r hr u hu
    simp only [List.mem_singleton] at hr
    subst hr
    simp at hu
  exact ⟨⟨hg, (claim_C2_create_then_getCurrent.1 _ 5 _ none hg).1⟩,
         ⟨hc, (claim_C2_create_then_getCurrent.2 _ 5 _ none hc).1⟩⟩

/-- **C3.** For every raw rate and margin fraction, the final quoted
price is `raw + raw*margin` on the buy side and `raw - raw*margin` on
the sell side, for both the gold and the currency calculator; in
particular a 100 raw rate with margin 0.02 quotes 102 buy and 98 sell,
and the spread of a record with buy 98 / sell 102 is 4. -/
theorem claim_C3_final_rate_formula :
    (∀ p : GoldPrice,
      p.getFinalPrice "buy" = p.buyPrice + p.buyPrice * p.marginBuy ∧
      p.getFinalPrice "sell" = p.sellPrice - p.sellPrice * p.marginSell) ∧
    (∀ r : CurrencyRate,
      r.getFinalRate "buy" = r.buyRate + r.buyRate * r.marginBuy ∧
      r.getFinalRate "sell" = r.sellRate - r.sellRate * r.marginSell) ∧
    (⟨1, 1, 100, 100, 0, 1/50, 1/50, false, none, 0, none⟩ :
        CurrencyRate).getFinalRate "buy" = 102 ∧
    (⟨1, 1, 100, 100, 0, 1/50, 1/50, false, none, 0, none⟩ :
        CurrencyRate).getFinalRate "sell" = 98 ∧
    (⟨1, 1, 98, 102, 4, 0, 0, false, none, 0, none⟩ :
        CurrencyRate).calculateSpread = 4 ∧
    (⟨1, 1, 100, 100, 0, 1/50, 1/50, false, none, 0, none⟩ :
        GoldPrice).getFinalPrice "buy" = 102 ∧
    (⟨1, 1, 100, 100, 0, 1/50, 1/50, false, none, 0, none⟩ :
        GoldPrice).getFinalPrice "sell" = 98 ∧
    (⟨1, 1, 98, 102, 4, 0, 0, false, none, 0, none⟩ :
        GoldPrice).calculateSpread = 4 := by
  have hs : ("sell" : String) ≠ "buy" := by decide
  refine ⟨fun p => ⟨?_, ?_⟩, fun r => ⟨?_, ?_⟩, ?_, ?_, ?_, ?_, ?_, ?_⟩
  · simp [GoldPrice.getFinalPrice, GoldPrice.calculateMargin]
  · simp [GoldPrice.getFinalPrice, GoldPrice.calculateMargin, hs]
  · simp [CurrencyRate.getFinalRate, CurrencyRate.calculateMargin]
  · simp [CurrencyRate.getFinalRate, CurrencyRate.calculateMargin, hs]
  · norm_num [CurrencyRate.getFinalRate, CurrencyRate.calculateMargin]
  · norm_num [CurrencyRate.getFinalRate, CurrencyRate.calculateMargin, hs]
  · norm_num [CurrencyRate.calculateSpread]
  · norm_num [GoldPrice.getFinalPrice, GoldPrice.calculateMargin]
  · norm_num [GoldPrice.getFinalPrice, GoldPrice.calculateMargin, hs]
  · norm_num [GoldPrice.calculateSpread]

namespace CurrencyRate

theorem convert_formula (st : Store) (now : ℕ) (a : ℚ)
    (fromCode toCode type : String) (f t : CurrencyRate)
    (hf : getCurrentRateByCode st now fromCode = some f)
    (ht : getCurrentRateByCode st now toCode = some t)
    (hfr : f.getFinalRate type ≠ 0) :
    convert st now (.fin a) fromCode toCode type =
      .ok { amount := .fin a
            fromCode := fromCode
            toCode := toCode
            result := .fin
              (((⌊a / f.getFinalRate type * t.getFinalRate type * 10000 +
                  1/2⌋ : ℤ) : ℚ) / 10000)
            rate := .fin
              (((⌊t.getFinalRate type / f.getFinalRate type * 10000 +
                  1/2⌋ : ℤ) : ℚ) / 10000) } := by
  have h4 : (10000 : ℚ) ≠ 0 := by norm_num
  unfold convert
  rw [hf, ht]
  simp [convertToBase, convertFromBase, round4, JSNum.div, JSNum.mul,
    JSNum.round, hfr, h4]

end CurrencyRate

/-- Fixture for C4: USD (final buy rate 1) and SAR (final buy rate 3.75),
both with zero margins, one open rate row each. -/
def usdSarStore : CurrencyRate.Store :=
  { currencies := [⟨1, "USD"⟩, ⟨2, "SAR"⟩]
    rates := [⟨1, 1, 1, 1, 0, 0, 0, false, none, 0, none⟩,
              ⟨2, 2, 15/4, 15/4, 0, 0, 0, false, none, 0, none⟩]
    nextId := 3 }

theorem usdSarStore_from_lookup :
    CurrencyRate.getCurrentRateByCode usdSarStore 0 "USD" =
      some ⟨1, 1, 1, 1, 0, 0, 0, false, none, 0, none⟩ := by
  have hup : ("USD" : String).toUpper = "USD" := by
    rw [String.toUpper, String.map_eq]; decide
  simp [CurrencyRate.getCurrentRateByCode, CurrencyRate.getCurrentRate,
    CurrencyRate.currentFor, CurrencyRate.pickLatest, usdSarStore, hup,
    List.find?]

theorem usdSarStore_to_lookup :
    CurrencyRate.getCurrentRateByCode usdSarStore 0 "SAR" =
      some ⟨2, 2, 15/4, 15/4, 0, 0, 0, false, none, 0, none⟩ := by
  have hup : ("SAR" : String).toUpper = "SAR" := by
    rw [String.toUpper, String.map_eq]; decide
  simp [CurrencyRate.getCurrentRateByCode, CurrencyRate.getCurrentRate,
    CurrencyRate.currentFor, CurrencyRate.pickLatest, usdSarStore, hup,
    List.find?]

/-- **C4 counterexample.** The source rounds with JavaScript
`Math.round` (ties toward +∞), not round-half-away-from-zero: converting
-1/75000 USD to SAR (USD final buy rate 1, SAR final buy rate 3.75)
gives the raw result -1/20000, whose value×10⁴ is the tie -0.5;
`Math.round` sends it to 0 while the claimed half-away-from-zero rounding
would give -0.0001. -/
theorem claim_C4_counterexample :
    CurrencyRate.convert usdSarStore 0 (.fin (-1/75000)) "USD" "SAR"
        "buy" =
      .ok ⟨.fin (-1/75000), "USD", "SAR", .fin 0, .fin (15/4)⟩ ∧
    specRound4HalfAwayFromZero ((-1/75000 : ℚ) / 1 * (15/4)) =
      -(1/10000) ∧
    (0 : ℚ) ≠ -(1/10000) := by
  refine ⟨?_, ?_, by norm_num⟩
  · rw [CurrencyRate.convert_formula usdSarStore 0 (-1/75000) "USD" "SAR"
      "buy" ⟨1, 1, 1, 1, 0, 0, 0, false, none, 0, none⟩
      ⟨2, 2, 15/4, 15/4, 0, 0, 0, false, none, 0, none⟩
      usdSarStore_from_lookup usdSarStore_to_lookup
      (by norm_num [CurrencyRate.getFinalRate, CurrencyRate.calculateMargin])]
    norm_num [CurrencyRate.getFinalRate, CurrencyRate.calculateMargin]
  · rw [specRound4HalfAwayFromZero]
    norm_num

/-- **C4 (amended).** For every amount and pair of currencies with
current rates, `convert` computes `result = (amount / source final rate)
* (target final rate)` and rounds both the result and the cross rate to 4
decimal places with JavaScript `Math.round` on value×10⁴ — i.e.
round-half-toward-+∞, which agrees with round-half-away-from-zero on
non-negative values but not on negative ties; in particular
`convert(100, 'USD', 'SAR', 'buy')` with USD final buy rate 1.0 and SAR
final buy rate 3.75 yields result 375.0. -/
theorem claim_C4_convert_rounding :
    (∀ (st : CurrencyRate.Store) (now : ℕ) (a : ℚ)
        (fromCode toCode type : String) (f t : CurrencyRate),
      CurrencyRate.getCurrentRateByCode st now fromCode = some f →
      CurrencyRate.getCurrentRateByCode st now toCode = some t →
      f.getFinalRate type ≠ 0 →
      CurrencyRate.convert st now (.fin a) fromCode toCode type =
        .ok { amount := .fin a
              fromCode := fromCode
              toCode := toCode
              result := .fin
                (((⌊a / f.getFinalRate type * t.getFinalRate type * 10000 +
                    1/2⌋ : ℤ) : ℚ) / 10000)
              rate := .fin
                (((⌊t.getFinalRate type / f.getFinalRate type * 10000 +
                    1/2⌋ : ℤ) : ℚ) / 10000) }) ∧
    CurrencyRate.convert usdSarStore 0 (.fin 100) "USD" "SAR" "buy" =
      .ok ⟨.fin 100, "USD", "SAR", .fin 375, .fin (15/4)⟩ := by
  constructor
  · intro st now a fromCode toCode type f t hf ht hfr
    exact CurrencyRate.convert_formula st now a fromCode toCode type f t
      hf ht hfr
  · rw [CurrencyRate.convert_formula usdSarStore 0 100 "USD" "SAR" "buy"
      ⟨1, 1, 1, 1, 0, 0, 0, false, none, 0, none⟩
      ⟨2, 2, 15/4, 15/4, 0, 0, 0, false, none, 0, none⟩
      usdSarStore_from_lookup usdSarStore_to_lookup
      (by norm_num [CurrencyRate.getFinalRate, CurrencyRate.calculateMargin])]
    norm_num [CurrencyRate.getFinalRate, CurrencyRate.calculateMargin]

/-- Witness for C4 at the fixture: both lookups succeed, the USD final
buy rate is non-zero, and the conversion of 100 USD evaluates as the
theorem states. -/
theorem claim_C4_witness :
    CurrencyRate.getCurrentRateByCode usdSarStore 0 "USD" =
      some ⟨1, 1, 1, 1, 0, 0, 0, false, none, 0, none⟩ ∧
    CurrencyRate.getCurrentRateByCode usdSarStore 0 "SAR" =
      some ⟨2, 2, 15/4, 15/4, 0, 0, 0, false, none, 0, none⟩ ∧
    (⟨1, 1, 1, 1, 0, 0, 0, false, none, 0, none⟩ :
        CurrencyRate).getFinalRate "buy" ≠ 0 ∧
    CurrencyRate.convert usdSarStore 0 (.fin 100) "USD" "SAR" "buy" =
      .ok { amount := .fin 100
            fromCode := "USD"
            toCode := "SAR"
            result := .fin
              (((⌊(100 : ℚ) / (⟨1, 1, 1, 1, 0, 0, 0, false, none, 0,
                    none⟩ : CurrencyRate).getFinalRate "buy" *
                  (⟨2, 2, 15/4, 15/4, 0, 0, 0, false, none, 0,
                    none⟩ : CurrencyRate).getFinalRate "buy" * 10000 +
                  1/2⌋ : ℤ) : ℚ) / 10000)
            rate := .fin
              (((⌊(⟨2, 2, 15/4, 15/4, 0, 0, 0, false, none, 0,
                    none⟩ : CurrencyRate).getFinalRate "buy" /
                  (⟨1, 1, 1, 1, 0, 0, 0, false, none, 0,
                    none⟩ : CurrencyRate).getFinalRate "buy" * 10000 +
                  1/2⌋ : ℤ) : ℚ) / 10000) } := by
  have hfr : (⟨1, 1, 1, 1, 0, 0, 0, false, none, 0, none⟩ :
      CurrencyRate).getFinalRate "buy" ≠ 0 := by
    norm_num [CurrencyRate.getFinalRate, CurrencyRate.calculateMargin]
  exact ⟨usdSarStore_from_lookup, usdSarStore_to_lookup, hfr,
    claim_C4_convert_rounding.1 usdSarStore 0 100 "USD" "SAR" "buy"
      ⟨1, 1, 1, 1, 0, 0, 0, false, none, 0, none⟩
      ⟨2, 2, 15/4, 15/4, 0, 0, 0, false, none, 0, none⟩
      usdSarStore_from_lookup usdSarStore_to_lookup hfr⟩

/-- Fixture for C5: USD stored with a zero rate (final rate 0) and SAR
with final rate 3.75. -/
def usdZeroStore : CurrencyRate.Store :=
  { currencies := [⟨1, "USD"⟩, ⟨2, "SAR"⟩]
    rates := [⟨1, 1, 0, 0, 0, 0, 0, false, none, 0, none⟩,
              ⟨2, 2, 15/4, 15/4, 0, 0, 0, false, none, 0, none⟩]
    nextId := 3 }

theorem usdZeroStore_from_lookup :
    CurrencyRate.getCurrentRateByCode usdZeroStore 0 "USD" =
      some ⟨1, 1, 0, 0, 0, 0, 0, false, none, 0, none⟩ := by
  have hup : ("USD" : String).toUpper = "USD" := by
    rw [String.toUpper, String.map_eq]; decide
  simp [CurrencyRate.getCurrentRateByCode, CurrencyRate.getCurrentRate,
    CurrencyRate.currentFor, CurrencyRate.pickLatest, usdZeroStore, hup,
    List.find?]

theorem usdZeroStore_to_lookup :
    CurrencyRate.getCurrentRateByCode usdZeroStore 0 "SAR" =
      some ⟨2, 2, 15/4, 15/4, 0, 0, 0, false, none, 0, none⟩ := by
  have hup : ("SAR" : String).toUpper = "SAR" := by
    rw [String.toUpper, String.map_eq]; decide
  simp [CurrencyRate.getCurrentRateByCode, CurrencyRate.getCurrentRate,
    CurrencyRate.currentFor, CurrencyRate.pickLatest, usdZeroStore, hup,
    List.find?]

namespace CurrencyRate

theorem convert_zero_source_rate (st : Store) (now : ℕ) (a : ℚ)
    (fromCode toCode type : String) (f t : CurrencyRate)
    (hf : getCurrentRateByCode st now fromCode = some f)
    (ht : getCurrentRateByCode st now toCode = some t)
    (hfr : f.getFinalRate type = 0) (ha : 0 < a)
    (htr : 0 < t.getFinalRate type) :
    convert st now (.fin a) fromCode toCode type =
      .ok { amount := .fin a
            fromCode := fromCode
            toCode := toCode
            result := .inf
            rate := .inf } := by
  unfold convert
  rw [hf, ht]
  have h1 : JSNum.div (.fin a) (.fin (f.getFinalRate type)) = .inf := by
    simp [JSNum.div, hfr, ha]
  have h2 : JSNum.div (.fin (t.getFinalRate type))
      (.fin (f.getFinalRate type)) = .inf := by
    simp [JSNum.div, hfr, htr]
  simp only [convertToBase, convertFromBase, h1, h2]
  have h3 : JSNum.mul .inf (.fin (t.getFinalRate type)) = .inf := by
    simp [JSNum.mul, htr]
  have h4 : round4 .inf = .inf := by
    norm_num [round4, JSNum.mul, JSNum.round, JSNum.div]
  rw [h3, h4]

end CurrencyRate

/-- **C5 counterexample.** With the USD final rate stored as 0,
`convert(100, 'USD', 'SAR', 'buy')` does not return a domain error: it
returns a success object whose `result` (and cross `rate`) is the
JavaScript Infinity produced by the unguarded division — there is no
`INVALID_RATE` path in the source. -/
theorem claim_C5_counterexample :
    CurrencyRate.convert usdZeroStore 0 (.fin 100) "USD" "SAR" "buy" =
      .ok ⟨.fin 100, "USD", "SAR", .inf, .inf⟩ := by
  rw [CurrencyRate.convert_zero_source_rate usdZeroStore 0 100 "USD" "SAR"
    "buy" ⟨1, 1, 0, 0, 0, 0, 0, false, none, 0, none⟩
    ⟨2, 2, 15/4, 15/4, 0, 0, 0, false, none, 0, none⟩
    usdZeroStore_from_lookup usdZeroStore_to_lookup
    (by norm_num [CurrencyRate.getFinalRate, CurrencyRate.calculateMargin])
    (by norm_num)
    (by norm_num [CurrencyRate.getFinalRate, CurrencyRate.calculateMargin])]

/-- **C5 (amended).** `convert` does not guard against a zero source
final rate: whenever the source instrument's final rate is 0 (with a
positive amount and a positive target final rate), it returns a success
value whose result and cross rate are Infinity, rather than any domain
error such as `INVALID_RATE`. -/
theorem claim_C5_zero_rate_propagates_infinity :
    ∀ (st : CurrencyRate.Store) (now : ℕ) (a : ℚ)
      (fromCode toCode type : String) (f t : CurrencyRate),
      CurrencyRate.getCurrentRateByCode st now fromCode = some f →
      CurrencyRate.getCurrentRateByCode st now toCode = some t →
      f.getFinalRate type = 0 → 0 < a → 0 < t.getFinalRate type →
      CurrencyRate.convert st now (.fin a) fromCode toCode type =
        .ok { amount := .fin a
              fromCode := fromCode
              toCode := toCode
              result := .inf
              rate := .inf } :=
  fun st now a fromCode toCode type f t hf ht hfr ha htr =>
    CurrencyRate.convert_zero_source_rate st now a fromCode toCode type
      f t hf ht hfr ha htr

/-- Witness for C5 at the fixture: the hypotheses hold for the stored
zero USD rate, and the conversion evaluates to a success object carrying
Infinity. -/
theorem claim_C5_witness :
    CurrencyRate.getCurrentRateByCode usdZeroStore 0 "USD" =
      some ⟨1, 1, 0, 0, 0, 0, 0, false, none, 0, none⟩ ∧
    CurrencyRate.getCurrentRateByCode usdZeroStore 0 "SAR" =
      some ⟨2, 2, 15/4, 15/4, 0, 0, 0, false, none, 0, none⟩ ∧
    (⟨1, 1, 0, 0, 0, 0, 0, false, none, 0, none⟩ :
        CurrencyRate).getFinalRate "buy" = 0 ∧
    (0 : ℚ) < 100 ∧
    (0 : ℚ) < (⟨2, 2, 15/4, 15/4, 0, 0, 0, false, none, 0, none⟩ :
        CurrencyRate).getFinalRate "buy" ∧
    CurrencyRate.convert usdZeroStore 0 (.fin 100) "USD" "SAR" "buy" =
      .ok { amount := .fin 100
            fromCode := "USD"
            toCode := "SAR"
            result := .inf
            rate := .inf } := by
  have hfr : (⟨1, 1, 0, 0, 0, 0, 0, false, none, 0, none⟩ :
      CurrencyRate).getFinalRate "buy" = 0 := by
    norm_num [CurrencyRate.getFinalRate, CurrencyRate.calculateMargin]
  have htr : (0 : ℚ) < (⟨2, 2, 15/4, 15/4, 0, 0, 0, false, none, 0,
      none⟩ : CurrencyRate).getFinalRate "buy" := by
    norm_num [CurrencyRate.getFinalRate, CurrencyRate.calculateMargin]
  exact ⟨usdZeroStore_from_lookup, usdZeroStore_to_lookup, hfr,
    by norm_num, htr,
    claim_C5_zero_rate_propagates_infinity usdZeroStore 0 100 "USD" "SAR"
      "buy" ⟨1, 1, 0, 0, 0, 0, 0, false, none, 0, none⟩
      ⟨2, 2, 15/4, 15/4, 0, 0, 0, false, none, 0, none⟩
      usdZeroStore_from_lookup usdZeroStore_to_lookup hfr (by norm_num)
      htr⟩

namespace GoldPrice

theorem update_open_redirects (s : Store) (now : ℕ) (id : ℕ)
    (f : UpdateData) (ub : Option ℕ) (p : GoldPrice)
    (hfind : findById s id = some p) (hopen : p.effectiveUntil = none) :
    update s now id f ub = .ok (create s now (mergedData p f) ub) ∧
      (create s now (mergedData p f) ub).1.recs.length =
        s.recs.length + 1 := by
  constructor
  · unfold update
    rw [hfind]
    simp [hopen]
  · simp [create]

theorem update_closed_in_place (s : Store) (now : ℕ) (id : ℕ)
    (f : UpdateData) (ub : Option ℕ) (p : GoldPrice) (u : ℕ)
    (hfind : findById s id = some p)
    (hclosed : p.effectiveUntil = some u) :
    update s now id f ub =
      .ok ({ recs := s.recs.map
               (fun r => if r.id = id then inPlaceRec p f ub else r)
             nextId := s.nextId },
           inPlaceRec p f ub) ∧
      (s.recs.map
        (fun r => if r.id = id then inPlaceRec p f ub else r)).length =
        s.recs.length ∧
      ∀ r ∈ s.recs, r.id ≠ id →
        r ∈ s.recs.map
          (fun r => if r.id = id then inPlaceRec p f ub else r) := by
  refine ⟨?_, by simp, ?_⟩
  · unfold update
    rw [hfind]
    simp [hclosed]
  · intro r hr hrid
    exact List.mem_map.mpr ⟨r, hr, by rw [if_neg hrid]⟩

end GoldPrice

namespace CurrencyRate

theorem rate_update_open_redirects (s : Store) (now : ℕ) (id : ℕ)
    (f : UpdateData) (ub : Option ℕ) (p : CurrencyRate)
    (hfind : findById s id = some p) (hopen : p.effectiveUntil = none) :
    update s now id f ub = .ok (create s now (mergedData p f) ub) ∧
      (create s now (mergedData p f) ub).1.rates.length =
        s.rates.length + 1 := by
  constructor
  · unfold update
    rw [hfind]
    simp [hopen]
  · simp [create]

theorem rate_update_closed_in_place (s : Store) (now : ℕ) (id : ℕ)
    (f : UpdateData) (ub : Option ℕ) (p : CurrencyRate) (u : ℕ)
    (hfind : findById s id = some p)
    (hclosed : p.effectiveUntil = some u) :
    update s now id f ub =
      .ok ({ s with rates := (s.rates.map
               (fun r => if r.id = id then inPlaceRec p f ub else r)) },
           inPlaceRec p f ub) ∧
      (s.rates.map
        (fun r => if r.id = id then inPlaceRec p f ub else r)).length =
        s.rates.length ∧
      ∀ r ∈ s.rates, r.id ≠ id →
        r ∈ s.rates.map
          (fun r => if r.id = id then inPlaceRec p f ub else r) := by
  refine ⟨?_, by simp, ?_⟩
  · unfold update
    rw [hfind]
    simp [hclosed]
  · intro r hr hrid
    exact List.mem_map.mpr ⟨r, hr, by rw [if_neg hrid]⟩

end CurrencyRate

/-- **C6.** For every existing price record: if it is open
(`effectiveUntil` null), `update` does not edit it in place but calls
`create` with the old and new fields merged, adding one new version
(record count grows by one); if it is already closed, `update` edits the
record's fields in place — the table is just the old table with that one
row rewritten, its length unchanged, every other row untouched — and
inserts no new record.  Stated for both the gold and the currency
store. -/
theorem claim_C6_update_versioning :
    (∀ (s : GoldPrice.Store) (now id : ℕ) (f : GoldPrice.UpdateData)
        (ub : Option ℕ) (p : GoldPrice),
      GoldPrice.findById s id = some p →
      (p.effectiveUntil = none →
        GoldPrice.update s now id f ub =
          .ok (GoldPrice.create s now (GoldPrice.mergedData p f) ub) ∧
        (GoldPrice.create s now
          (GoldPrice.mergedData p f) ub).1.recs.length =
          s.recs.length + 1) ∧
      (∀ u, p.effectiveUntil = some u →
        GoldPrice.update s now id f ub =
          .ok ({ recs := s.recs.map
                   (fun r => if r.id = id
                             then GoldPrice.inPlaceRec p f ub else r)
                 nextId := s.nextId },
               GoldPrice.inPlaceRec p f ub) ∧
        (s.recs.map (fun r => if r.id = id
            then GoldPrice.inPlaceRec p f ub else r)).length =
          s.recs.length ∧
        ∀ r ∈ s.recs, r.id ≠ id →
          r ∈ s.recs.map (fun r => if r.id = id
              then GoldPrice.inPlaceRec p f ub else r))) ∧
    (∀ (s : CurrencyRate.Store) (now id : ℕ) (f : CurrencyRate.UpdateData)
        (ub : Option ℕ) (p : CurrencyRate),
      CurrencyRate.findById s id = some p →
      (p.effectiveUntil = none →
        CurrencyRate.update s now id f ub =
          .ok (CurrencyRate.create s now (CurrencyRate.mergedData p f) ub) ∧
        (CurrencyRate.create s now
          (CurrencyRate.mergedData p f) ub).1.rates.length =
          s.rates.length + 1) ∧
      (∀ u, p.effectiveUntil = some u →
        CurrencyRate.update s now id f ub =
          .ok ({ s with rates := (s.rates.map
                   (fun r => if r.id = id
                             then CurrencyRate.inPlaceRec p f ub else r)) },
               CurrencyRate.inPlaceRec p f ub) ∧
        (s.rates.map (fun r => if r.id = id
            then CurrencyRate.inPlaceRec p f ub else r)).length =
          s.rates.length ∧
        ∀ r ∈ s.rates, r.id ≠ id →
          r ∈ s.rates.map (fun r => if r.id = id
              then CurrencyRate.inPlaceRec p f ub else r))) := by
  constructor
  · intro s now id f ub p hfind
    exact ⟨fun hopen =>
        GoldPrice.update_open_redirects s now id f ub p hfind hopen,
      fun u hclosed =>
        GoldPrice.update_closed_in_place s now id f ub p u hfind hclosed⟩
  · intro s now id f ub p hfind
    exact ⟨fun hopen =>
        CurrencyRate.rate_update_open_redirects s now id f ub p hfind hopen,
      fun u hclosed =>
        CurrencyRate.rate_update_closed_in_place s now id f ub p u hfind
          hclosed⟩

/-- Fixture for the C6 witness: a gold store with one closed row (id 1)
and one open row (id 2) of gold type 1. -/
def goldFixtureStore : GoldPrice.Store :=
  ⟨[⟨1, 1, 80, 85, 5, 0, 0, false, none, 1, some 3⟩,
    ⟨2, 1, 90, 95, 5, 0, 0, false, none, 3, none⟩], 3⟩

/-- Fixture update payload for the C6 witness. -/
def goldFixtureUpdate : GoldPrice.UpdateData :=
  ⟨some 50, some 60, some (1/100), none, some true⟩

/-- Fixture for the C6 witness: a currency store with one closed row
(id 1) and one open row (id 2) of currency 1. -/
def currencyFixtureStore : CurrencyRate.Store :=
  ⟨[], [⟨1, 1, 80, 85, 5, 0, 0, false, none, 1, some 3⟩,
        ⟨2, 1, 90, 95, 5, 0, 0, false, none, 3, none⟩], 3⟩

/-- Fixture update payload for the C6 witness. -/
def currencyFixtureUpdate : CurrencyRate.UpdateData :=
  ⟨some 50, some 60, some (1/100), none, some true⟩

/-- Witness for C6: on the fixture stores, updating the open row id 2
redirects to `create` and updating the closed row id 1 rewrites it in
place. -/
theorem claim_C6_witness :
    GoldPrice.findById goldFixtureStore 2 =
      some ⟨2, 1, 90, 95, 5, 0, 0, false, none, 3, none⟩ ∧
    GoldPrice.update goldFixtureStore 9 2 goldFixtureUpdate none =
      .ok (GoldPrice.create goldFixtureStore 9
        (GoldPrice.mergedData ⟨2, 1, 90, 95, 5, 0, 0, false, none, 3, none⟩
          goldFixtureUpdate) none) ∧
    GoldPrice.findById goldFixtureStore 1 =
      some ⟨1, 1, 80, 85, 5, 0, 0, false, none, 1, some 3⟩ ∧
    GoldPrice.update goldFixtureStore 9 1 goldFixtureUpdate none =
      .ok ({ recs := goldFixtureStore.recs.map
               (fun r => if r.id = 1
                  then GoldPrice.inPlaceRec
                    ⟨1, 1, 80, 85, 5, 0, 0, false, none, 1, some 3⟩
                    goldFixtureUpdate none
                  else r)
             nextId := goldFixtureStore.nextId },
           GoldPrice.inPlaceRec
             ⟨1, 1, 80, 85, 5, 0, 0, false, none, 1, some 3⟩
             goldFixtureUpdate none) ∧
    CurrencyRate.findById currencyFixtureStore 2 =
      some ⟨2, 1, 90, 95, 5, 0, 0, false, none, 3, none⟩ ∧
    CurrencyRate.update currencyFixtureStore 9 2 currencyFixtureUpdate
        none =
      .ok (CurrencyRate.create currencyFixtureStore 9
        (CurrencyRate.mergedData
          ⟨2, 1, 90, 95, 5, 0, 0, false, none, 3, none⟩
          currencyFixtureUpdate) none) ∧
    CurrencyRate.findById currencyFixtureStore 1 =
      some ⟨1, 1, 80, 85, 5, 0, 0, false, none, 1, some 3⟩ ∧
    CurrencyRate.update currencyFixtureStore 9 1 currencyFixtureUpdate
        none =
      .ok ({ currencyFixtureStore with rates :=
               (currencyFixtureStore.rates.map
                 (fun r => if r.id = 1
                    then CurrencyRate.inPlaceRec
                      ⟨1, 1, 80, 85, 5, 0, 0, false, none, 1, some 3⟩
                      currencyFixtureUpdate none
                    else r)) },
           CurrencyRate.inPlaceRec
             ⟨1, 1, 80, 85, 5, 0, 0, false, none, 1, some 3⟩
             currencyFixtureUpdate none) := by
  have hgOpen : GoldPrice.findById goldFixtureStore 2 =
      some ⟨2, 1, 90, 95, 5, 0, 0, false, none, 3, none⟩ := by
    simp [GoldPrice.findById, goldFixtureStore, List.find?]
  have hgClosed : GoldPrice.findById goldFixtureStore 1 =
      some ⟨1, 1, 80, 85, 5, 0, 0, false, none, 1, some 3⟩ := by
    simp [GoldPrice.findById, goldFixtureStore, List.find?]
  have hcOpen : CurrencyRate.findById currencyFixtureStore 2 =
      some ⟨2, 1, 90, 95, 5, 0, 0, false, none, 3, none⟩ := by
    simp [CurrencyRate.findById, currencyFixtureStore, List.find?]
  have hcClosed : CurrencyRate.findById currencyFixtureStore 1 =
      some ⟨1, 1, 80, 85, 5, 0, 0, false, none, 1, some 3⟩ := by
    simp [CurrencyRate.findById, currencyFixtureStore, List.find?]
  refine ⟨hgOpen, ?_, hgClosed, ?_, hcOpen, ?_, hcClosed, ?_⟩
  · exact (((claim_C6_update_versioning.1 goldFixtureStore 9 2
      goldFixtureUpdate none _ hgOpen).1) rfl).1
  · exact (((claim_C6_update_versioning.1 goldFixtureStore 9 1
      goldFixtureUpdate none _ hgClosed).2) 3 rfl).1
  · exact (((claim_C6_update_versioning.2 currencyFixtureStore 9 2
      currencyFixtureUpdate none _ hcOpen).1) rfl).1
  · exact (((claim_C6_update_versioning.2 currencyFixtureStore 9 1
      currencyFixtureUpdate none _ hcClosed).2) 3 rfl).1

/-- **C7 counterexample.** A mutating request with a token that does not
match the session's token is rejected, but no audit entry is produced:
`logSecurityEvent` only console-logs (its `INSERT INTO audit_log` is
commented out), so zero audit rows are inserted. -/
theorem claim_C7_counterexample :
    csrfProtection ⟨"POST", some "tokenA", none, none, some "tokenB"⟩ =
      ⟨.reject 403 "CSRF_INVALID", true, 0⟩ ∧
    ¬ (0 < (csrfProtection
        ⟨"POST", some "tokenA", none, none, some "tokenB"⟩).auditRowsInserted) := by
  constructor
  · simp [csrfProtection, extractCsrfToken, truthyS,
      logSecurityEventAuditRows]
  · intro h
    simp [csrfProtection, extractCsrfToken, truthyS,
      logSecurityEventAuditRows] at h

/-- **C7 (amended).** For every request with a method other than GET,
HEAD or OPTIONS, the CSRF middleware rejects with 403 `CSRF_MISSING`
when no (truthy) token is present in the `x-csrf-token` header, body
`_csrf` or query `_csrf`; with a token present it passes exactly when
the token is case-sensitively equal to the session's `csrfToken`; and on
a mismatched token it rejects with 403 `CSRF_INVALID` and console-logs a
security event, but writes no audit entry (the `audit_log` insert in
`logSecurityEvent` is commented out).  GET, HEAD and OPTIONS requests
always pass through unchecked. -/
theorem claim_C7_csrf_behavior :
    ∀ r : CsrfRequest,
      ((r.method = "GET" ∨ r.method = "HEAD" ∨ r.method = "OPTIONS") →
        csrfProtection r = ⟨.pass, false, 0⟩) ∧
      (¬ (r.method = "GET" ∨ r.method = "HEAD" ∨ r.method = "OPTIONS") →
        truthyS (extractCsrfToken r) = false →
        csrfProtection r = ⟨.reject 403 "CSRF_MISSING", false, 0⟩) ∧
      (¬ (r.method = "GET" ∨ r.method = "HEAD" ∨ r.method = "OPTIONS") →
        truthyS (extractCsrfToken r) = true →
        ((csrfProtection r).outcome = .pass ↔
          r.sessionCsrfToken = extractCsrfToken r)) ∧
      (¬ (r.method = "GET" ∨ r.method = "HEAD" ∨ r.method = "OPTIONS") →
        truthyS (extractCsrfToken r) = true →
        r.sessionCsrfToken ≠ extractCsrfToken r →
        csrfProtection r = ⟨.reject 403 "CSRF_INVALID", true, 0⟩) := by
  intro r
  refine ⟨?_, ?_, ?_, ?_⟩
  · intro h
    simp [csrfProtection, h]
  · intro hm ht
    simp [csrfProtection, hm, ht]
  · intro hm ht
    by_cases hs : r.sessionCsrfToken = extractCsrfToken r
    · have hts : truthyS r.sessionCsrfToken = true := by rw [hs]; exact ht
      simp [csrfProtection, hm, ht, hs, hts]
    · have hs' : ¬ extractCsrfToken r = r.sessionCsrfToken :=
        fun h => hs (Eq.symm h)
      simp [csrfProtection, hm, ht, hs, hs', logSecurityEventAuditRows]
  · intro hm ht hs
    have hs' : ¬ extractCsrfToken r = r.sessionCsrfToken :=
      fun h => hs (Eq.symm h)
    simp [csrfProtection, hm, ht, hs', logSecurityEventAuditRows]

/-- Witness for C7 at concrete requests: a GET passes unchecked; a POST
with no token is rejected `CSRF_MISSING`; a POST whose token equals the
session token passes; a POST with a mismatched token is rejected
`CSRF_INVALID` with a console security event and zero audit rows. -/
theorem claim_C7_witness :
    csrfProtection ⟨"GET", none, none, none, some "tok"⟩ =
      ⟨.pass, false, 0⟩ ∧
    csrfProtection ⟨"POST", none, none, none, some "tok"⟩ =
      ⟨.reject 403 "CSRF_MISSING", false, 0⟩ ∧
    (csrfProtection ⟨"POST", some "tok", none, none, some "tok"⟩).outcome =
      .pass ∧
    csrfProtection ⟨"POST", some "bad", none, none, some "tok"⟩ =
      ⟨.reject 403 "CSRF_INVALID", true, 0⟩ := by
  refine ⟨?_, ?_, ?_, ?_⟩
  · exact (claim_C7_csrf_behavior ⟨"GET", none, none, none, some "tok"⟩).1
      (Or.inl rfl)
  · exact (claim_C7_csrf_behavior
      ⟨"POST", none, none, none, some "tok"⟩).2.1 (by decide) (by decide)
  · exact ((claim_C7_csrf_behavior
      ⟨"POST", some "tok", none, none, some "tok"⟩).2.2.1 (by decide)
      (by decide)).mpr (by decide)
  · exact (claim_C7_csrf_behavior
      ⟨"POST", some "bad", none, none, some "tok"⟩).2.2.2 (by decide)
      (by decide) (by decide)

/-- **C8 counterexample.** With working days 1–6, open "08:00", close
"22:00", current day 3 and current time exactly "22:00" (the close
time), `isMarketOpen` returns `true`: the source compares with
`currentTime <= closeTime`, a closed interval, so a time equal to
`closeTime` does not yield `false` as the claim states. -/
theorem claim_C8_counterexample :
    StoreSettings.isMarketOpen [1, 2, 3, 4, 5, 6] "08:00" "22:00" 3
      "22:00" = true := by
  have h1 : ("08:00" : String) ≤ "22:00" := by
    rw [String.le_iff_toList_le]; decide
  have h2 : ("22:00" : String) ≤ "22:00" := le_refl _
  have hc : (([1, 2, 3, 4, 5, 6] : List ℕ).contains 3) = true := by decide
  simp [StoreSettings.isMarketOpen, hc, h1, h2]

/-- **C8 (amended).** `isMarketOpen()` returns true exactly when the
current day-of-week (derived in the configured timezone) is a member of
the configured open-days set and the current "HH:MM" string lies in the
closed interval [openTime, closeTime] under lexicographic string
comparison — both endpoints inclusive, so a current time equal to
`closeTime` yields `true`. -/
theorem claim_C8_market_open_iff :
    ∀ (days : List ℕ) (openTime closeTime currentTime : String)
      (currentDay : ℕ),
      StoreSettings.isMarketOpen days openTime closeTime currentDay
          currentTime = true ↔
        (currentDay ∈ days ∧ openTime ≤ currentTime ∧
          currentTime ≤ closeTime) := by
  intro days o c t d
  simp only [StoreSettings.isMarketOpen]
  by_cases hd : d ∈ days
  · have hc : days.contains d = true := by
      simpa [List.contains] using hd
    simp [hc, hd]
  · have hc : days.contains d = false := by
      simpa [List.contains] using hd
    simp [hc, hd]

namespace GoldPrice

theorem update_zero_buy_ignored (s : Store) (now id : ℕ) (f : UpdateData)
    (ub : Option ℕ) :
    update s now id { f with buyPrice := some 0 } ub =
      update s now id { f with buyPrice := none } ub := by
  simp only [update]
  cases hfind : findById s id with
  | none => rfl
  | some p =>
      dsimp only
      by_cases hopen : p.effectiveUntil = none
      · rw [if_pos hopen, if_pos hopen]
        have : mergedData p { f with buyPrice := some 0 } =
            mergedData p { f with buyPrice := none } := by
          simp [mergedData, jsOrQ]
        rw [this]
      · rw [if_neg hopen, if_neg hopen]
        have : inPlaceRec p { f with buyPrice := some 0 } ub =
            inPlaceRec p { f with buyPrice := none } ub := by
          simp [inPlaceRec, jsOrQ]
        rw [this]

theorem update_zero_sell_ignored (s : Store) (now id : ℕ)
    (f : UpdateData) (ub : Option ℕ) :
    update s now id { f with sellPrice := some 0 } ub =
      update s now id { f with sellPrice := none } ub := by
  simp only [update]
  cases hfind : findById s id with
  | none => rfl
  | some p =>
      dsimp only
      by_cases hopen : p.effectiveUntil = none
      · rw [if_pos hopen, if_pos hopen]
        have : mergedData p { f with sellPrice := some 0 } =
            mergedData p { f with sellPrice := none } := by
          simp [mergedData, jsOrQ]
        rw [this]
      · rw [if_neg hopen, if_neg hopen]
        have : inPlaceRec p { f with sellPrice := some 0 } ub =
            inPlaceRec p { f with sellPrice := none } ub := by
          simp [inPlaceRec, jsOrQ]
        rw [this]

theorem update_result_fields (s : Store) (now id : ℕ) (f : UpdateData)
    (ub : Option ℕ) (p : GoldPrice) (hfind : findById s id = some p)
    (s' : Store) (r : GoldPrice)
    (hup : update s now id f ub = .ok (s', r)) :
    (f.buyPrice = some 0 → r.buyPrice = p.buyPrice) ∧
    (f.sellPrice = some 0 → r.sellPrice = p.sellPrice) ∧
    (f.marginBuy = some 0 → r.marginBuy = 0) ∧
    (f.marginSell = some 0 → r.marginSell = 0) ∧
    (f.isManual = some false → r.isManual = false) := by
  simp only [update, hfind] at hup
  by_cases hopen : p.effectiveUntil = none
  · rw [if_pos hopen] at hup
    simp only [Except.ok.injEq, Prod.mk.injEq, create] at hup
    obtain ⟨-, hr⟩ := hup
    subst hr
    refine ⟨?_, ?_, ?_, ?_, ?_⟩ <;>
      (intro hf; simp [mergedData, jsOrQ, hf])
  · rw [if_neg hopen] at hup
    simp only [Except.ok.injEq, Prod.mk.injEq] at hup
    obtain ⟨-, hr⟩ := hup
    subst hr
    refine ⟨?_, ?_, ?_, ?_, ?_⟩ <;>
      (intro hf; simp [inPlaceRec, jsOrQ, hf])

end GoldPrice

namespace CurrencyRate

theorem rate_update_zero_buy_ignored (s : Store) (now id : ℕ) (f : UpdateData)
    (ub : Option ℕ) :
    update s now id { f with buyRate := some 0 } ub =
      update s now id { f with buyRate := none } ub := by
  simp only [update]
  cases hfind : findById s id with
  | none => rfl
  | some p =>
      dsimp only
      by_cases hopen : p.effectiveUntil = none
      · rw [if_pos hopen, if_pos hopen]
        have : mergedData p { f with buyRate := some 0 } =
            mergedData p { f with buyRate := none } := by
          simp [mergedData, jsOrQ]
        rw [this]
      · rw [if_neg hopen, if_neg hopen]
        have : inPlaceRec p { f with buyRate := some 0 } ub =
            inPlaceRec p { f with buyRate := none } ub := by
          simp [inPlaceRec, jsOrQ]
        rw [this]

theorem rate_update_zero_sell_ignored (s : Store) (now id : ℕ)
    (f : UpdateData) (ub : Option ℕ) :
    update s now id { f with sellRate := some 0 } ub =
      update s now id { f with sellRate := none } ub := by
  simp only [update]
  cases hfind : findById s id with
  | none => rfl
  | some p =>
      dsimp only
      by_cases hopen : p.effectiveUntil = none
      · rw [if_pos hopen, if_pos hopen]
        have : mergedData p { f with sellRate := some 0 } =
            mergedData p { f with sellRate := none } := by
          simp [mergedData, jsOrQ]
        rw [this]
      · rw [if_neg hopen, if_neg hopen]
        have : inPlaceRec p { f with sellRate := some 0 } ub =
            inPlaceRec p { f with sellRate := none } ub := by
          simp [inPlaceRec, jsOrQ]
        rw [this]

theorem rate_update_result_fields (s : Store) (now id : ℕ) (f : UpdateData)
    (ub : Option ℕ) (p : CurrencyRate) (hfind : findById s id = some p)
    (s' : Store) (r : CurrencyRate)
    (hup : update s now id f ub = .ok (s', r)) :
    (f.buyRate = some 0 → r.buyRate = p.buyRate) ∧
    (f.sellRate = some 0 → r.sellRate = p.sellRate) ∧
    (f.marginBuy = some 0 → r.marginBuy = 0) ∧
    (f.marginSell = some 0 → r.marginSell = 0) ∧
    (f.isManual = some false → r.isManual = false) := by
  simp only [update, hfind] at hup
  by_cases hopen : p.effectiveUntil = none
  · rw [if_pos hopen] at hup
    simp only [Except.ok.injEq, Prod.mk.injEq, create] at hup
    obtain ⟨-, hr⟩ := hup
    subst hr
    refine ⟨?_, ?_, ?_, ?_, ?_⟩ <;>
      (intro hf; simp [mergedData, jsOrQ, hf])
  · rw [if_neg hopen] at hup
    simp only [Except.ok.injEq, Prod.mk.injEq] at hup
    obtain ⟨-, hr⟩ := hup
    subst hr
    refine ⟨?_, ?_, ?_, ?_, ?_⟩ <;>
      (intro hf; simp [inPlaceRec, jsOrQ, hf])

end CurrencyRate

/-- **C9.** For every existing price record, supplying
`buyPrice`/`buyRate` or `sellPrice`/`sellRate` equal to 0 to `update`
behaves exactly as if the field were absent — the JavaScript `||` merge
keeps the previous record's price in both the open-record
(redirect-to-create) path and the closed-record in-place path, so a
nonzero price can never be changed to 0 through `update` — while the
margins and `isManual` are merged with `!== undefined` and do accept
explicit falsy values (an explicit 0 margin or `false` flag is stored).
Stated for both the gold and the currency store. -/
theorem claim_C9_zero_price_treated_absent :
    (∀ (s : GoldPrice.Store) (now id : ℕ) (f : GoldPrice.UpdateData)
        (ub : Option ℕ),
      GoldPrice.update s now id { f with buyPrice := some 0 } ub =
        GoldPrice.update s now id { f with buyPrice := none } ub ∧
      GoldPrice.update s now id { f with sellPrice := some 0 } ub =
        GoldPrice.update s now id { f with sellPrice := none } ub) ∧
    (∀ (s : GoldPrice.Store) (now id : ℕ) (f : GoldPrice.UpdateData)
        (ub : Option ℕ) (p : GoldPrice) (s' : GoldPrice.Store)
        (r : GoldPrice),
      GoldPrice.findById s id = some p →
      GoldPrice.update s now id f ub = .ok (s', r) →
      (f.buyPrice = some 0 → r.buyPrice = p.buyPrice) ∧
      (f.sellPrice = some 0 → r.sellPrice = p.sellPrice) ∧
      (f.marginBuy = some 0 → r.marginBuy = 0) ∧
      (f.marginSell = some 0 → r.marginSell = 0) ∧
      (f.isManual = some false → r.isManual = false)) ∧
    (∀ (s : CurrencyRate.Store) (now id : ℕ) (f : CurrencyRate.UpdateData)
        (ub : Option ℕ),
      CurrencyRate.update s now id { f with buyRate := some 0 } ub =
        CurrencyRate.update s now id { f with buyRate := none } ub ∧
      CurrencyRate.update s now id { f with sellRate := some 0 } ub =
        CurrencyRate.update s now id { f with sellRate := none } ub) ∧
    (∀ (s : CurrencyRate.Store) (now id : ℕ) (f : CurrencyRate.UpdateData)
        (ub : Option ℕ) (p : CurrencyRate) (s' : CurrencyRate.Store)
        (r : CurrencyRate),
      CurrencyRate.findById s id = some p →
      CurrencyRate.update s now id f ub = .ok (s', r) →
      (f.buyRate = some 0 → r.buyRate = p.buyRate) ∧
      (f.sellRate = some 0 → r.sellRate = p.sellRate) ∧
      (f.marginBuy = some 0 → r.marginBuy = 0) ∧
      (f.marginSell = some 0 → r.marginSell = 0) ∧
      (f.isManual = some false → r.isManual = false)) := by
  refine ⟨fun s now id f ub => ⟨?_, ?_⟩, ?_, fun s now id f ub => ⟨?_, ?_⟩,
    ?_⟩
  · exact GoldPrice.update_zero_buy_ignored s now id f ub
  · exact GoldPrice.update_zero_sell_ignored s now id f ub
  · intro s now id f ub p s' r hfind hup
    exact GoldPrice.update_result_fields s now id f ub p hfind s' r hup
  · exact CurrencyRate.rate_update_zero_buy_ignored s now id f ub
  · exact CurrencyRate.rate_update_zero_sell_ignored s now id f ub
  · intro s now id f ub p s' r hfind hup
    exact CurrencyRate.rate_update_result_fields s now id f ub p hfind s' r hup

/-- Fixture for the C9 witness: one closed gold row with nonzero margins
and `isManual = true`. -/
def gold9Store : GoldPrice.Store :=
  ⟨[⟨1, 1, 80, 85, 5, 1/100, 1/100, true, none, 1, some 3⟩], 2⟩

/-- Fixture for the C9 witness: the currency twin. -/
def currency9Store : CurrencyRate.Store :=
  ⟨[], [⟨1, 1, 80, 85, 5, 1/100, 1/100, true, none, 1, some 3⟩], 2⟩

/-- Witness for C9 at the fixtures: an `update` supplying price 0,
margin 0 and `isManual = false` on the closed row keeps the old prices
but stores the explicit zero margins and `false` flag. -/
theorem claim_C9_witness :
    (GoldPrice.update gold9Store 9 1 ⟨some 0, none, none, none, none⟩
        none =
      GoldPrice.update gold9Store 9 1 ⟨none, none, none, none, none⟩
        none) ∧
    GoldPrice.findById gold9Store 1 =
      some ⟨1, 1, 80, 85, 5, 1/100, 1/100, true, none, 1, some 3⟩ ∧
    GoldPrice.update gold9Store 9 1
        ⟨some 0, some 0, some 0, some 0, some false⟩ none =
      .ok (⟨[⟨1, 1, 80, 85, 5, 0, 0, false, none, 1, some 3⟩], 2⟩,
           ⟨1, 1, 80, 85, 5, 0, 0, false, none, 1, some 3⟩) ∧
    ((⟨1, 1, 80, 85, 5, 0, 0, false, none, 1, some 3⟩ :
        GoldPrice).buyPrice =
      (⟨1, 1, 80, 85, 5, 1/100, 1/100, true, none, 1, some 3⟩ :
        GoldPrice).buyPrice) ∧
    ((⟨1, 1, 80, 85, 5, 0, 0, false, none, 1, some 3⟩ :
        GoldPrice).marginBuy = 0) ∧
    ((⟨1, 1, 80, 85, 5, 0, 0, false, none, 1, some 3⟩ :
        GoldPrice).isManual = false) ∧
    (CurrencyRate.update currency9Store 9 1
        ⟨some 0, none, none, none, none⟩ none =
      CurrencyRate.update currency9Store 9 1
        ⟨none, none, none, none, none⟩ none) ∧
    CurrencyRate.findById currency9Store 1 =
      some ⟨1, 1, 80, 85, 5, 1/100, 1/100, true, none, 1, some 3⟩ ∧
    CurrencyRate.update currency9Store 9 1
        ⟨some 0, some 0, some 0, some 0, some false⟩ none =
      .ok (⟨[], [⟨1, 1, 80, 85, 5, 0, 0, false, none, 1, some 3⟩], 2⟩,
           ⟨1, 1, 80, 85, 5, 0, 0, false, none, 1, some 3⟩) := by
  have hgfind : GoldPrice.findById gold9Store 1 =
      some ⟨1, 1, 80, 85, 5, 1/100, 1/100, true, none, 1, some 3⟩ := by
    simp [GoldPrice.findById, gold9Store, List.find?]
  have hcfind : CurrencyRate.findById currency9Store 1 =
      some ⟨1, 1, 80, 85, 5, 1/100, 1/100, true, none, 1, some 3⟩ := by
    simp [CurrencyRate.findById, currency9Store, List.find?]
  have hgup : GoldPrice.update gold9Store 9 1
      ⟨some 0, some 0, some 0, some 0, some false⟩ none =
      .ok (⟨[⟨1, 1, 80, 85, 5, 0, 0, false, none, 1, some 3⟩], 2⟩,
           ⟨1, 1, 80, 85, 5, 0, 0, false, none, 1, some 3⟩) := by
    simp only [GoldPrice.update, hgfind]
    norm_num [GoldPrice.inPlaceRec, jsOrQ, gold9Store]
    exact fun h => absurd h (by simp)
  have hcup : CurrencyRate.update currency9Store 9 1
      ⟨some 0, some 0, some 0, some 0, some false⟩ none =
      .ok (⟨[], [⟨1, 1, 80, 85, 5, 0, 0, false, none, 1, some 3⟩], 2⟩,
           ⟨1, 1, 80, 85, 5, 0, 0, false, none, 1, some 3⟩) := by
    simp only [CurrencyRate.update, hcfind]
    norm_num [CurrencyRate.inPlaceRec, jsOrQ, currency9Store]
    exact fun h => absurd h (by simp)
  have hgfields := claim_C9_zero_price_treated_absent.2.1 gold9Store 9 1
    ⟨some 0, some 0, some 0, some 0, some false⟩ none
    ⟨1, 1, 80, 85, 5, 1/100, 1/100, true, none, 1, some 3⟩
    ⟨[⟨1, 1, 80, 85, 5, 0, 0, false, none, 1, some 3⟩], 2⟩
    ⟨1, 1, 80, 85, 5, 0, 0, false, none, 1, some 3⟩ hgfind hgup
  exact ⟨(claim_C9_zero_price_treated_absent.1 gold9Store 9 1
      ⟨none, none, none, none, none⟩ none).1, hgfind, hgup,
    hgfields.1 rfl, hgfields.2.2.1 rfl, hgfields.2.2.2.2 rfl,
    (claim_C9_zero_price_treated_absent.2.2.1 currency9Store 9 1
      ⟨none, none, none, none, none⟩ none).1, hcfind, hcup⟩

namespace User

theorem delete_last_admin_refused (s : Store) (id : ℕ) (u : User)
    (hfind : findById s id = some u) (hrole : u.role = "admin")
    (hcount : activeAdminCount s ≤ 1) :
    delete s id = .error "Cannot delete the last admin user" ∧
      applyDelete s id = s := by
  have hdel : delete s id = .error "Cannot delete the last admin user" := by
    unfold delete
    rw [hfind]
    dsimp only
    rw [if_pos ⟨hrole, hcount⟩]
  exact ⟨hdel, by unfold applyDelete; rw [hdel]⟩

theorem applyDelete_nodup (s : Store) (id : ℕ)
    (h : (s.users.map User.id).Nodup) :
    ((applyDelete s id).users.map User.id).Nodup := by
  unfold applyDelete delete
  cases hfind : findById s id with
  | none => exact h
  | some u =>
      dsimp only
      by_cases hguard : u.role = "admin" ∧ activeAdminCount s ≤ 1
      · rw [if_pos hguard]
        exact h
      · rw [if_neg hguard]
        dsimp only
        exact List.Nodup.sublist
          (List.Sublist.map User.id (List.filter_sublist s.users)) h

theorem applyDelete_preserves_active_admin (s : Store) (id : ℕ)
    (hnd : (s.users.map User.id).Nodup) (hga : hasActiveAdmin s) :
    hasActiveAdmin (applyDelete s id) := by
  unfold applyDelete delete
  cases hfind : findById s id with
  | none => exact hga
  | some u =>
      dsimp only
      by_cases hguard : u.role = "admin" ∧ activeAdminCount s ≤ 1
      · rw [if_pos hguard]
        exact hga
      · rw [if_neg hguard]
        dsimp only
        have hu_mem : u ∈ s.users := List.mem_of_find?_eq_some hfind
        have hu_id : u.id = id := by
          have := List.find?_some hfind
          simpa using this
        by_cases hrole : u.role = "admin"
        · have hcount : 2 ≤ activeAdminCount s := by
            rcases Nat.lt_or_ge (activeAdminCount s) 2 with h2 | h2
            · exact absurd ⟨hrole, by omega⟩ hguard
            · exact h2
          have hAnd : ((s.users.filter
              (fun v => v.role == "admin" && v.isActive)).map
                User.id).Nodup :=
            List.Nodup.sublist
              (List.Sublist.map User.id (List.filter_sublist s.users)) hnd
          have hex : ∃ a ∈ s.users.filter
              (fun v => v.role == "admin" && v.isActive), a.id ≠ id := by
            rcases hA2 : s.users.filter
                (fun v => v.role == "admin" && v.isActive) with
              _ | ⟨a, _ | ⟨b, rest⟩⟩
            · rw [activeAdminCount, hA2] at hcount
              simp at hcount
            · rw [activeAdminCount, hA2] at hcount
              simp at hcount
            · have hab : a.id ≠ b.id := by
                rw [hA2] at hAnd
                simp only [List.map_cons, List.nodup_cons,
                  List.mem_cons, List.mem_map] at hAnd
                exact fun h => hAnd.1 (Or.inl h)
              by_cases haid : a.id = id
              · refine ⟨b, by rw [hA2]; simp, fun hbid => ?_⟩
                exact hab (by rw [haid, hbid])
              · exact ⟨a, by rw [hA2]; simp, haid⟩
          obtain ⟨a, haA, haid⟩ := hex
          have hmem := List.mem_filter.mp haA
          have hprops : a.role = "admin" ∧ a.isActive = true := by
            have := hmem.2
            simpa using this
          exact ⟨a, List.mem_filter.mpr ⟨hmem.1, by simp [haid]⟩,
            hprops.1, hprops.2⟩
        · obtain ⟨a, ha_mem, ha_role, ha_act⟩ := hga
          have haid : a.id ≠ id := by
            intro hid
            apply hrole
            have hau : a = u :=
              List.inj_on_of_nodup_map hnd ha_mem hu_mem
                (by rw [hid, hu_id])
            rw [← hau]
            exact ha_role
          exact ⟨a, List.mem_filter.mpr ⟨ha_mem, by simp [haid]⟩,
            ha_role, ha_act⟩

theorem applyDeletes_preserves_active_admin (ids : List ℕ) :
    ∀ s : Store, (s.users.map User.id).Nodup → hasActiveAdmin s →
      hasActiveAdmin (applyDeletes s ids) := by
  induction ids with
  | nil => intro s _ hga; exact hga
  | cons id rest ih =>
      intro s hnd hga
      exact ih (applyDelete s id) (applyDelete_nodup s id hnd)
        (applyDelete_preserves_active_admin s id hnd hga)

end User

/-- **C10.** `User.delete` refuses to delete the last active admin:
whenever the target user's role is `admin` and at most one active admin
user exists, it throws and leaves the `users` and `sessions` tables
unchanged; consequently (with distinct user ids, as the primary key
guarantees) every sequence of `User.delete` calls preserves the
invariant that at least one active admin user exists. -/
theorem claim_C10_last_admin_protected :
    (∀ (s : User.Store) (id : ℕ) (u : User),
      User.findById s id = some u → u.role = "admin" →
      User.activeAdminCount s ≤ 1 →
      User.delete s id = .error "Cannot delete the last admin user" ∧
        User.applyDelete s id = s) ∧
    (∀ (s : User.Store) (ids : List ℕ),
      (s.users.map User.id).Nodup → User.hasActiveAdmin s →
      User.hasActiveAdmin (User.applyDeletes s ids)) := by
  constructor
  · intro s id u hfind hrole hcount
    exact User.delete_last_admin_refused s id u hfind hrole hcount
  · intro s ids hnd hga
    exact User.applyDeletes_preserves_active_admin ids s hnd hga

/-- Witness for C10: a store with a single active admin (id 1, one
session); deleting them fails and leaves the store unchanged, and any
sequence of delete attempts keeps an active admin. -/
theorem claim_C10_witness :
    User.findById ⟨[⟨1, "alice", "admin", true⟩], [⟨1⟩]⟩ 1 =
      some ⟨1, "alice", "admin", true⟩ ∧
    (⟨1, "alice", "admin", true⟩ : User).role = "admin" ∧
    User.activeAdminCount ⟨[⟨1, "alice", "admin", true⟩], [⟨1⟩]⟩ ≤ 1 ∧
    User.delete ⟨[⟨1, "alice", "admin", true⟩], [⟨1⟩]⟩ 1 =
      .error "Cannot delete the last admin user" ∧
    User.applyDelete ⟨[⟨1, "alice", "admin", true⟩], [⟨1⟩]⟩ 1 =
      ⟨[⟨1, "alice", "admin", true⟩], [⟨1⟩]⟩ ∧
    User.hasActiveAdmin
      (User.applyDeletes ⟨[⟨1, "alice", "admin", true⟩], [⟨1⟩]⟩ [1, 1]) := by
  have hfind : User.findById ⟨[⟨1, "alice", "admin", true⟩], [⟨1⟩]⟩ 1 =
      some ⟨1, "alice", "admin", true⟩ := by
    simp [User.findById, List.find?]
  have hcount : User.activeAdminCount
      ⟨[⟨1, "alice", "admin", true⟩], [⟨1⟩]⟩ ≤ 1 := by
    simp [User.activeAdminCount, List.filter]
  have hnd : (((⟨[⟨1, "alice", "admin", true⟩], [⟨1⟩]⟩ :
      User.Store)).users.map User.id).Nodup := by
    simp
  have hga : User.hasActiveAdmin
      ⟨[⟨1, "alice", "admin", true⟩], [⟨1⟩]⟩ :=
    ⟨⟨1, "alice", "admin", true⟩, by simp, rfl, rfl⟩
  have hdel := claim_C10_last_admin_protected.1
    ⟨[⟨1, "alice", "admin", true⟩], [⟨1⟩]⟩ 1 ⟨1, "alice", "admin", true⟩
    hfind rfl hcount
  exact ⟨hfind, rfl, hcount, hdel.1, hdel.2,
    claim_C10_last_admin_protected.2
      ⟨[⟨1, "alice", "admin", true⟩], [⟨1⟩]⟩ [1, 1] hnd hga⟩
